import Mathlib

/-!
# Verification of django-url-filter's lookup-parsing and filtering engine

This file gives a shallow embedding, in Lean 4, of the core of the
`django-url-filter` repository:

* `url_filter/utils.py` — `FilterSpec`, `LookupConfig`;
* `url_filter/filters.py` — `Filter.get_spec`, per-lookup form fields;
* `url_filter/fields.py` — `MultipleValuesField.clean`;
* `url_filter/filtersets/base.py` — key validation, lookup-config
  generation, `FilterSet.get_spec` / `get_specs`;
* `url_filter/constants.py` — the three-valued `StrictMode`;
* `url_filter/backends/plain.py` — the in-memory backend;
* `url_filter/backends/django.py` and `django_ufilter/backends/django.py`
  — the two Django queryset backends;

together with theorems settling the behavioural claims about those
functions.  Python's dynamically-typed values are modelled with explicit
inductive value types; Python exceptions are modelled with `Except` and
`Option`; machine-level caveats (Python string `hash` collisions, unicode
word characters beyond ASCII) are noted where they arise.
-/

namespace UrlFilter

/-! ## Python string primitives

Lean's own `String.splitOn`, `String.trim`, … are implemented over byte
positions and do not reduce inside the kernel, so the Python string
operations used by the repository are modelled directly over the
character list (`String.data`).  All of them are ASCII-faithful; unicode
differences (Python's `\w`, `str.lower`) are noted at their use sites.
-/

/-- Python `s.split('__')` (the Django `LOOKUP_SEP`): non-overlapping,
left to right. -/
def splitDunder : List Char → List (List Char)
  | [] => [[]]
  | '_' :: '_' :: rest => [] :: splitDunder rest
  | c :: rest =>
    match splitDunder rest with
    | [] => [[c]]
    | g :: gs => (c :: g) :: gs

def pySplitDunder (s : String) : List String :=
  (splitDunder s.data).map (fun cs => (⟨cs⟩ : String))

/-- Python `s.split(',')` (the `MultipleValuesField` delimiter). -/
def splitComma : List Char → List (List Char)
  | [] => [[]]
  | ',' :: rest => [] :: splitComma rest
  | c :: rest =>
    match splitComma rest with
    | [] => [[c]]
    | g :: gs => (c :: g) :: gs

def pySplitComma (s : String) : List String :=
  (splitComma s.data).map (fun cs => (⟨cs⟩ : String))

/-- Python `s.strip()` (whitespace at both ends). -/
def pyStrip (s : String) : String :=
  ⟨((s.data.dropWhile Char.isWhitespace).reverse.dropWhile Char.isWhitespace).reverse⟩

/-- Python `s.lower()` (ASCII). -/
def lowerStr (s : String) : String :=
  ⟨s.data.map Char.toLower⟩

/-- `'{sep}'.join(l)`. -/
def joinSep (sep : String) : List String → String
  | [] => ""
  | [x] => x
  | x :: y :: xs => x ++ sep ++ joinSep sep (y :: xs)

/-- Python `sub in hay` for strings (substring containment). -/
def listHasSub (hay sub : List Char) : Bool :=
  sub.isPrefixOf hay ||
    match hay with
    | [] => false
    | _ :: t => listHasSub t sub

def strHasSub (hay sub : String) : Bool :=
  listHasSub hay.data sub.data

/-! ## Values

Cleaned (post-validation) filter values, as produced by the Django form
fields used in `url_filter/filters.py`: strings, integers, booleans,
`None`, and lists of values (for the multi-value lookups `in`/`range`).
-/

inductive Value where
  | str (s : String)
  | int (n : Int)
  | bool (b : Bool)
  | null
  | list (xs : List Value)

mutual

/-- Decidable equality for `Value` (hand-rolled because `Value` nests
`List Value`). -/
def Value.decEqFn : (a b : Value) → Decidable (a = b)
  | .str a, b =>
    match b with
    | .str b' => if h : a = b' then isTrue (by rw [h]) else isFalse (by simp [h])
    | .int _ => isFalse (by simp)
    | .bool _ => isFalse (by simp)
    | .null => isFalse (by simp)
    | .list _ => isFalse (by simp)
  | .int a, b =>
    match b with
    | .str _ => isFalse (by simp)
    | .int b' => if h : a = b' then isTrue (by rw [h]) else isFalse (by simp [h])
    | .bool _ => isFalse (by simp)
    | .null => isFalse (by simp)
    | .list _ => isFalse (by simp)
  | .bool a, b =>
    match b with
    | .str _ => isFalse (by simp)
    | .int _ => isFalse (by simp)
    | .bool b' => if h : a = b' then isTrue (by rw [h]) else isFalse (by simp [h])
    | .null => isFalse (by simp)
    | .list _ => isFalse (by simp)
  | .null, b =>
    match b with
    | .str _ => isFalse (by simp)
    | .int _ => isFalse (by simp)
    | .bool _ => isFalse (by simp)
    | .null => isTrue rfl
    | .list _ => isFalse (by simp)
  | .list xs, b =>
    match b with
    | .str _ => isFalse (by simp)
    | .int _ => isFalse (by simp)
    | .bool _ => isFalse (by simp)
    | .null => isFalse (by simp)
    | .list ys =>
      match Value.decEqListFn xs ys with
      | isTrue h => isTrue (by rw [h])
      | isFalse h => isFalse (by simp [h])

def Value.decEqListFn : (xs ys : List Value) → Decidable (xs = ys)
  | [], [] => isTrue rfl
  | [], _ :: _ => isFalse (by simp)
  | _ :: _, [] => isFalse (by simp)
  | x :: xs, y :: ys =>
    match Value.decEqFn x y, Value.decEqListFn xs ys with
    | isTrue h1, isTrue h2 => isTrue (by rw [h1, h2])
    | isFalse h1, _ => isFalse (by simp [h1])
    | _, isFalse h2 => isFalse (by simp [h2])

end

instance : DecidableEq Value := Value.decEqFn

/-- Python truthiness of a cleaned value (`bool(value)`). -/
def Value.truthy : Value → Bool
  | .str s => s != ""
  | .int n => n != 0
  | .bool b => b
  | .null => false
  | .list xs => !xs.isEmpty

mutual

/-- Python `repr` of a cleaned value, as it appears inside
`FilterSpec.__repr__` (`url_filter/utils.py`).  String escaping of quote
characters inside the string is not modelled.  -/
def Value.pyRepr : Value → String
  | .str s => "'" ++ s ++ "'"
  | .int n => toString n
  | .bool b => if b then "True" else "False"
  | .null => "None"
  | .list xs => "[" ++ joinSep ", " (Value.pyReprList xs) ++ "]"

def Value.pyReprList : List Value → List String
  | [] => []
  | x :: xs => Value.pyRepr x :: Value.pyReprList xs

end

/-! ## FilterSpec (`url_filter/utils.py`)

`filter_callable` is modelled by the identity that
`FilterSpec.__repr__` prints for it: the bound method's class name and
method name (`" via {cls}.{name}"`); `none` models a regular
(non-callable) specification.
-/

structure FilterSpec where
  components : List String
  lookup : String
  value : Value
  is_negated : Bool := false
  filter_callable : Option (String × String) := none
deriving DecidableEq

/-- `FilterSpec.is_callable`. -/
def FilterSpec.is_callable (s : FilterSpec) : Bool :=
  s.filter_callable.isSome

/-- `FilterSpec.__repr__` (utils.py lines 64–80):
`"<{name} {components} {negated}{lookup} {value!r}{callable}>"` with the
components joined by `"."`, `"NOT "` when negated, and
`" via {cls}.{meth}"` for callable specs. -/
def FilterSpec.reprStr (s : FilterSpec) : String :=
  let callableRepr :=
    match s.filter_callable with
    | none => ""
    | some (cls, meth) => " via " ++ cls ++ "." ++ meth
  "<FilterSpec " ++ joinSep "." s.components ++ " " ++
    (if s.is_negated then "NOT " else "") ++ s.lookup ++ " " ++
    s.value.pyRepr ++ callableRepr ++ ">"

/-- `FilterSpec.__hash__` is `hash(repr(self))`; we model the hash by the
repr string itself (i.e. we assume Python's string hash is injective,
which is its intended behaviour up to accidental collisions). -/
def FilterSpec.hashStr (s : FilterSpec) : String :=
  s.reprStr

/-- `FilterSpec.__eq__` is `hash(self) == hash(other)`, i.e. equality of
the hashes of the reprs. -/
def FilterSpec.specEq (a b : FilterSpec) : Bool :=
  a.hashStr == b.hashStr

/-! ## LookupConfig (`url_filter/utils.py` lines 89–181)

A `LookupConfig` wraps a flat querystring key together with either the
raw string value or a nested one-entry dictionary.  In the Python code
the dictionary values are themselves `LookupConfig`s sharing the same
`key`; here the key is kept once at the top (`LookupCfg`) and the nested
dictionary skeleton is `ConfigData`.
-/

inductive ConfigData where
  | leaf (s : String)
  | node (entries : List (String × ConfigData))

mutual

def ConfigData.decEqFn : (a b : ConfigData) → Decidable (a = b)
  | .leaf s, b =>
    match b with
    | .leaf t => if h : s = t then isTrue (by rw [h]) else isFalse (by simp [h])
    | .node _ => isFalse (by simp)
  | .node es, b =>
    match b with
    | .leaf _ => isFalse (by simp)
    | .node fs =>
      match ConfigData.decEqEntries es fs with
      | isTrue h => isTrue (by rw [h])
      | isFalse h => isFalse (by simp [h])

def ConfigData.decEqEntries : (a b : List (String × ConfigData)) → Decidable (a = b)
  | [], [] => isTrue rfl
  | [], _ :: _ => isFalse (by simp)
  | _ :: _, [] => isFalse (by simp)
  | (k, v) :: xs, (k', v') :: ys =>
    if hk : k = k' then
      match ConfigData.decEqFn v v', ConfigData.decEqEntries xs ys with
      | isTrue h1, isTrue h2 => isTrue (by rw [hk, h1, h2])
      | isFalse h1, _ => isFalse (by simp [h1])
      | _, isFalse h2 => isFalse (by simp [h2])
    else isFalse (by simp [hk])

end

instance : DecidableEq ConfigData := ConfigData.decEqFn

/-- One lookup configuration: the original flat key plus the parsed
nested data (`LookupConfig` in `url_filter/utils.py`). -/
structure LookupCfg where
  key : String
  data : ConfigData
deriving DecidableEq

/-- `LookupConfig.is_key_value` (utils.py line 146): the data is a
one-entry dictionary.  In the Python code the second conjunct
`not isinstance(self.value, dict)` is always true because `__init__`
wraps every dictionary value in a `LookupConfig` (which is not a `dict`),
so the test degenerates to the length check. -/
def ConfigData.isKeyValue : ConfigData → Bool
  | .leaf _ => false
  | .node entries => entries.length == 1

/-- `key.replace('!', '')` (filtersets/base.py line 421): every `!` is
removed from the key before splitting on the lookup separator. -/
def stripNeg (key : String) : String :=
  ⟨key.data.filter (fun c => c != '!')⟩

/-- `'!' in config.key` (filters.py line 377): negation detection. -/
def hasNegMark (key : String) : Bool :=
  key.data.contains '!'

/-- The nested one-branch dictionary built by
`FilterSet._generate_lookup_configs` (filtersets/base.py lines 417–422):
`reduce(lambda a, b: {b: a}, (key.replace('!','').split('__') + [value])[::-1])`,
i.e. a right fold of the separator-split segments over the raw value. -/
def chainOf (key v : String) : ConfigData :=
  (pySplitDunder (stripNeg key)).foldr
    (fun s acc => ConfigData.node [(s, acc)]) (ConfigData.leaf v)

/-- `FilterSet._generate_lookup_configs`: one `LookupConfig` per value of
every key of the querystring multi-map (duplicate values each produce
their own config). -/
def generateLookupConfigs (data : List (String × List String)) : List LookupCfg :=
  data.flatMap fun kv => kv.2.map fun v => ⟨kv.1, chainOf kv.1 v⟩

/-- Modelled from the spec (§4.1): the strictly nested single-branch
mapping `{s1: {s2: ... {sn: v}}}` built from segments `[s1,...,sn]` and
raw value `v`.  Used only to compare the source's fold against the
spec's description. -/
def specNestedChain : List String → String → ConfigData
  | [], v => .leaf v
  | s :: rest, v => .node [(s, specNestedChain rest v)]

/-- Every non-leaf level of the data is a one-entry mapping. -/
def ConfigData.singleBranch : ConfigData → Bool
  | .leaf _ => true
  | .node [(_, c)] => singleBranch c
  | .node _ => false

/-! ## Filter key validation (`filtersets/base.py` lines 45–65)

`LOOKUP_RE` is `^(?:[^\d\W]\w*)(?:__?[^\d\W]\w*)*(?:!)?$` (IGNORECASE).
Because `\w` already contains `_` and every other token of the pattern
only matches word characters, the accepted language is exactly: a word
character string that starts with a non-digit word character, optionally
followed by one final `!`.  Word characters are modelled over ASCII
(Python's `\w` additionally accepts non-ASCII letters). -/

def isWordCh (c : Char) : Bool :=
  c.isAlpha || c.isDigit || c == '_'

def isStartCh (c : Char) : Bool :=
  c.isAlpha || c == '_'

/-- `FilterSet.validate_key` via `FilterKeyValidator`: `true` iff the key
matches `LOOKUP_RE`. -/
def validateKey (key : String) : Bool :=
  let cs := key.data
  let cs := if cs.getLast? == some '!' then cs.dropLast else cs
  match cs with
  | [] => false
  | c :: rest => isStartCh c && rest.all isWordCh

/-! ## Form fields (`django.forms` fields as used by `url_filter`)

The repository validates raw values with Django form fields.  Only the
field classes the engine itself instantiates are modelled:
`CharField`, `IntegerField`, `BooleanField` (the `isnull` overwrite uses
`required=False`), and `url_filter.fields.MultipleValuesField`.
`MultipleValuesField` is always created by the engine via
`MANY_LOOKUP_FIELD_OVERWRITES` with `required=True` and `all_valid=True`,
so those two flags are fixed in the model.
-/

inductive FormField where
  | charField (required : Bool) (maxLength : Option Nat)
  | integerField (required : Bool) (minValue maxValue : Option Int)
  | booleanField (required : Bool)
  | multipleValues (child : FormField) (minValues maxValues : Option Nat)

/-! Python's `str()` of the raw data handed to a form field.  For a
scalar this is the querystring string itself.  For a malformed deep key
(e.g. `field__in__equal=value`) the raw data is a dictionary whose
values are `LookupConfig` objects, and `str(dict)` prints the reprs:
`{'equal': <LookupConfig field__in__equal=>'value'>}` — note that the
**original flat key** (negation mark included) appears inside the
resulting string. -/

mutual

/-- `repr(LookupConfig.as_dict())` — nested plain-`dict`/string repr. -/
def ConfigData.reprAsDict : ConfigData → String
  | .leaf s => "'" ++ s ++ "'"
  | .node entries =>
    "\x7b" ++ joinSep ", " (ConfigData.reprEntries entries) ++ "\x7d"

def ConfigData.reprEntries : List (String × ConfigData) → List String
  | [] => []
  | (k, c) :: rest =>
    ("'" ++ k ++ "': " ++ ConfigData.reprAsDict c) :: ConfigData.reprEntries rest

end

/-- `LookupConfig.__repr__` (utils.py lines 178–181). -/
def lookupConfigRepr (key : String) (c : ConfigData) : String :=
  "<LookupConfig " ++ key ++ "=>" ++ c.reprAsDict ++ ">"

/-- `str(value)` for the raw data reaching a form field's `clean`. -/
def pyStrOfData (key : String) : ConfigData → String
  | .leaf s => s
  | .node entries =>
    "\x7b" ++
      joinSep ", "
        (entries.map (fun kc => "'" ++ kc.1 ++ "': " ++ lookupConfigRepr key kc.2)) ++
      "\x7d"

def requiredMsg : String := "This field is required."

def maxLenCharsMsg (limit shown : Nat) : String :=
  "Ensure this value has at most " ++ toString limit ++
    " characters (it has " ++ toString shown ++ ")."

def minValMsg (limit : Int) : String :=
  "Ensure this value is greater than or equal to " ++ toString limit ++ "."

def maxValMsg (limit : Int) : String :=
  "Ensure this value is less than or equal to " ++ toString limit ++ "."

def minItemsMsg (limit shown : Nat) : String :=
  "Ensure this value has at least " ++ toString limit ++
    " items (it has " ++ toString shown ++ ")."

def maxItemsMsg (limit shown : Nat) : String :=
  "Ensure this value has at most " ++ toString limit ++
    " items (it has " ++ toString shown ++ ")."

/-- Django `IntegerField.to_python`: strip, drop a trailing `.0*`
(`re_decimals`), then `int(...)` — an optional sign followed by ASCII
digits. -/
def parsePyInt (s : String) : Option Int :=
  let cs := (pyStrip s).data
  -- re_decimals: remove a suffix consisting of '.' followed only by zeros
  let cs :=
    match cs.reverse.dropWhile (fun c => c == '0') with
    | '.' :: rest => rest.reverse
    | _ => cs
  -- `int(...)` itself tolerates surrounding whitespace
  let cs := (pyStrip ⟨cs⟩).data
  let signDigits : Bool × List Char :=
    match cs with
    | '-' :: rest => (true, rest)
    | '+' :: rest => (false, rest)
    | _ => (false, cs)
  match signDigits with
  | (sign, ds) =>
    if ds.isEmpty || !ds.all Char.isDigit then none
    else
      let n : Nat := ds.foldl (fun acc c => acc * 10 + (c.toNat - '0'.toNat)) 0
      some (if sign then -(n : Int) else (n : Int))

/-- Shared `CharField.clean` body (`to_python` + `validate` +
`run_validators`) applied to an already-`str()`ed value. -/
def cleanCharCore (required : Bool) (maxLength : Option Nat) (s : String) :
    Except (List String) Value :=
  let s := pyStrip s
  if s == "" then
    if required then .error [requiredMsg] else .ok (.str "")
  else
    match maxLength with
    | some m =>
      if s.length > m then .error [maxLenCharsMsg m s.length] else .ok (.str s)
    | none => .ok (.str s)

/-- `MultipleValuesField.many_to_python` with `all_valid=True`: clean
each delimiter-separated piece with the child field's cleaner,
propagating the first failure. -/
def cleanListWith (cleanChild : String → Except (List String) Value) :
    List String → Except (List String) (List Value)
  | [] => .ok []
  | p :: rest =>
    match cleanChild p with
    | .error msgs => .error msgs
    | .ok v =>
      match cleanListWith cleanChild rest with
      | .error msgs => .error msgs
      | .ok vs => .ok (v :: vs)

/-- `form_field.clean(value)` for the modelled form fields.  `key` is the
original flat key of the lookup config — it is only consulted when the
raw data is a nested dictionary, which Python coerces via `str()`
(embedding `LookupConfig` reprs that contain the key). -/
def cleanField : FormField → String → ConfigData → Except (List String) Value
  | .charField required maxLength => fun key data =>
    cleanCharCore required maxLength (pyStrOfData key data)
  | .integerField required minV maxV => fun key data =>
    let rawEmpty := match data with | .leaf s => s == "" | .node _ => false
    if rawEmpty then
      if required then .error [requiredMsg] else .ok .null
    else
      match parsePyInt (pyStrOfData key data) with
      | none => .error ["Enter a whole number."]
      | some n =>
        let errs :=
          (match maxV with
           | some m => if n > m then [maxValMsg m] else []
           | none => []) ++
          (match minV with
           | some m => if n < m then [minValMsg m] else []
           | none => [])
        if errs.isEmpty then .ok (.int n) else .error errs
  | .booleanField required => fun _ data =>
    let b :=
      match data with
      | .leaf s =>
        if lowerStr s == "false" || lowerStr s == "0" then false else s != ""
      | .node _ => true
    if !b && required then .error [requiredMsg] else .ok (.bool b)
  | .multipleValues child minVals maxVals =>
    -- `MultipleValuesField.clean` (fields.py lines 60–77)
    let cleanChild := cleanField child
    fun key data =>
      let s := pyStrip (pyStrOfData key data)
      if s == "" then .error [requiredMsg]
      else
        match cleanListWith (fun p => cleanChild key (.leaf p)) (pySplitComma s) with
        | .error msgs => .error msgs
        | .ok values =>
          let cnt := values.length
          let errs :=
            (match minVals with
             | some m => if cnt < m then [minItemsMsg m cnt] else []
             | none => []) ++
            (match maxVals with
             | some m => if cnt > m then [maxItemsMsg m cnt] else []
             | none => [])
          if errs.isEmpty then .ok (.list values) else .error errs

/-! ## The filter tree

A declared `FilterSet` is a tree of named children: leaf `Filter`s
(`url_filter/filters.py`) and nested `FilterSet`s
(`url_filter/filtersets/base.py`).  The children mapping is an ordered
association structure (Python dict insertion order); it is represented
as a bespoke mutual inductive so that the resolution functions are
structurally recursive.
-/

/-- The declaration-time data of a leaf `Filter`:
`source` parameter, form field, `lookups`, `default_lookup`,
`is_default`, `no_lookup`. -/
structure LeafInfo where
  src : Option String
  form_field : FormField
  lookups : Option (List String)
  default_lookup : String := "exact"
  is_default : Bool := false
  no_lookup : Bool := false

mutual

inductive FilterDef where
  | leaf (info : LeafInfo)
  | fset (src : Option String) (children : FilterChildren)

inductive FilterChildren where
  | nil
  | cons (name : String) (d : FilterDef) (rest : FilterChildren)

end

/-- `BaseFilter.source`: the explicit `source` parameter, or the bound
name. -/
def FilterDef.srcOpt : FilterDef → Option String
  | .leaf info => info.src
  | .fset src _ => src

def sourceOf (name : String) (d : FilterDef) : String :=
  d.srcOpt.getD name

/-- `FilterSet.default_filter` (filtersets/base.py lines 231–243): the
first declared filter with `is_default=True`.  Nested `FilterSet`s have
no `is_default` attribute (`getattr(i, 'is_default', False)` is false
for them), so only leaf filters qualify. -/
def defaultChild : FilterChildren → Option (String × LeafInfo)
  | .nil => none
  | .cons n d rest =>
    match d with
    | .leaf info => if info.is_default then some (n, info) else defaultChild rest
    | .fset _ _ => defaultChild rest

/-- `name in self.filters` followed by `self.filters[name]`. -/
def findChild : FilterChildren → String → Option (String × FilterDef)
  | .nil, _ => none
  | .cons n d rest, name => if n == name then some (n, d) else findChild rest name

/-- `DjangoFilterBackend.supported_lookups`
(`url_filter/backends/django.py` lines 19–44). -/
def djangoSupportedLookups : List String :=
  ["contains", "day", "endswith", "exact", "gt", "gte", "hour", "icontains",
   "iendswith", "iexact", "in", "iregex", "isnull", "istartswith", "lt",
   "lte", "minute", "month", "range", "regex", "second", "startswith",
   "week_day", "year"]

/-- `PlainFilterBackend.supported_lookups`
(`url_filter/backends/plain.py` lines 23–49): the Django set plus
`iin`. -/
def plainSupportedLookups : List String :=
  ["contains", "day", "endswith", "exact", "gt", "gte", "hour", "icontains",
   "iendswith", "iexact", "iin", "in", "iregex", "isnull", "istartswith",
   "lt", "lte", "minute", "month", "range", "regex", "second", "startswith",
   "week_day", "year"]

deriving instance DecidableEq for Except

/-- Outcome of `get_spec`: a produced `FilterSpec`, a benign
`SkipFilter`, or a `ValidationError` with its message list. -/
inductive ResolveResult where
  | ok (spec : FilterSpec)
  | skip
  | invalid (msgs : List String)
deriving DecidableEq

def complexDataMsg : String :=
  "Invalid filtering data provided. Data is more complex then expected. " ++
    "Most likely additional lookup was specified after the final lookup " ++
    "(e.g. field__in__equal=value)."

def noLookupMsg : String :=
  "Lookup was explicit used in filter specification. " ++
    "This filter does not allow to specify lookup."

def unsupportedLookupMsg (lookup : String) : String :=
  "\"" ++ lookup ++ "\" lookup is not supported"

/-- `Filter.lookups` (filters.py lines 261–286): the explicitly given
lookups when truthy (a non-empty list), otherwise the root filterset
backend's supported lookups. -/
def effectiveLookups (backendLookups : List String) : Option (List String) → List String
  | some l => if l.isEmpty then backendLookups else l
  | none => backendLookups

/-- `Filter.get_form_field` (filters.py lines 288–313) with the
`MANY_LOOKUP_FIELD_OVERWRITES` and `LOOKUP_FIELD_OVERWRITES` tables
(filters.py lines 16–30). -/
def getFormField (f : FormField) (lookup : String) : FormField :=
  if lookup == "in" then .multipleValues f (some 1) none
  else if lookup == "range" then .multipleValues f (some 2) (some 2)
  else if lookup == "isnull" then .booleanField false
  else if lookup == "second" then .integerField true (some 0) (some 59)
  else if lookup == "minute" then .integerField true (some 0) (some 59)
  else if lookup == "hour" then .integerField true (some 0) (some 23)
  else if lookup == "week_day" then .integerField true (some 1) (some 7)
  else if lookup == "day" then .integerField true (some 1) (some 31)
  else if lookup == "month" then .integerField true none none
  else if lookup == "year" then .integerField true (some 0) (some 9999)
  else f

/-- `Filter.get_spec` (filters.py lines 334–380).  `comps` is the bound
filter's `self.components`; `key` is the original flat key of the
config. -/
def leafGetSpec (backendLookups : List String) (comps : List String)
    (info : LeafInfo) (key : String) (data : ConfigData) : ResolveResult :=
  let lookupValue : Except (List String) (String × ConfigData) :=
    match data with
    | .node entries =>
      -- lookup was explicitly provided
      if !(ConfigData.isKeyValue (.node entries)) then .error [complexDataMsg]
      else if info.no_lookup then .error [noLookupMsg]
      else
        match entries with
        | (lk, v) :: _ => .ok (lk, v)
        | [] => .error [complexDataMsg]  -- unreachable: `isKeyValue` forces one entry
    | .leaf s =>
      -- use default lookup
      .ok (info.default_lookup, .leaf s)
  match lookupValue with
  | .error msgs => .invalid msgs
  | .ok (lookup, value) =>
    if !((effectiveLookups backendLookups info.lookups).contains lookup) then
      .invalid [unsupportedLookupMsg lookup]
    else
      match cleanField (getFormField info.form_field lookup) key value with
      | .error msgs => .invalid msgs
      | .ok v => .ok ⟨comps, lookup, v, hasNegMark key, none⟩

mutual

/-- `get_spec` dispatch over the tree.  For a leaf this is
`Filter.get_spec`; for a nested tree it is `FilterSet.get_spec`
(filtersets/base.py lines 371–411).  `isRoot` is `self is self.root`. -/
def resolveDef (bl : List String) (d : FilterDef) (comps : List String)
    (isRoot : Bool) (key : String) (data : ConfigData) : ResolveResult :=
  match d with
  | .leaf info => leafGetSpec bl comps info key data
  | .fset _ children =>
    let nv : Option (String × ConfigData) :=
      match data with
      | .node entries =>
        -- `name, value = config.name, config.value`
        match entries with
        | (n, v) :: _ => some (n, v)
        | [] => none  -- unreachable from generated configs
      | .leaf s =>
        -- `name = self.default_filter.source`,
        -- `value = LookupConfig(config.key, config.data)`
        match defaultChild children with
        | none => none  -- `raise SkipFilter`
        | some (dn, dd) => some ((dd.src).getD dn, .leaf s)
    match nv with
    | none => .skip
    | some (name, value) =>
      match findResolve bl children comps name key value with
      | some r => r
      | none =>
        -- `name not in self.filters`
        match defaultChild children with
        | some (dn, dd) =>
          if isRoot then .skip
          else
            -- lookup on the default filter of this (non-root) filterset,
            -- applied to the *current* config
            leafGetSpec bl (comps ++ [(dd.src).getD dn]) dd key data
        | none => .skip

/-- Walk the declared children; `some r` when a child with the given
name exists (`self.filters[name].get_spec(value)`), `none` otherwise. -/
def findResolve (bl : List String) (children : FilterChildren)
    (comps : List String) (name : String) (key : String) (value : ConfigData) :
    Option ResolveResult :=
  match children with
  | .nil => none
  | .cons n d rest =>
    if n == name then some (resolveDef bl d (comps ++ [sourceOf n d]) false key value)
    else findResolve bl rest comps name key value

end

/-- Resolution of one lookup config starting at the root filterset (the
root's own `components` are empty and `self is self.root`). -/
def resolveRoot (bl : List String) (children : FilterChildren)
    (cfg : LookupCfg) : ResolveResult :=
  resolveDef bl (.fset none children) [] true cfg.key cfg.data

/-! ## Strictness policy and `get_specs`

`url_filter/constants.py` declares the three-valued `StrictMode`
(`empty`, `drop`, `fail`); the repository's tests
(`tests/filtersets/test_base.py`) exercise all three together with an
`Empty` exception from `url_filter.exceptions`.  The copy of
`filtersets/base.py` under `src/` predates the `empty` mode: its
`get_specs` only implements `drop` and `fail`, and `exceptions.py` lacks
`Empty`.  Accordingly the `drop`/`fail` behaviour below is translated
from `FilterSet.get_specs` (filtersets/base.py lines 329–369), while the
`empty` branch is *modelled from the spec* (§4.4): «on the first
failure, filtering is short-circuited and the caller receives an
explicit "no results" signal distinct from "zero specs"».
-/

/-- `StrictMode` (url_filter/constants.py lines 6–23). -/
inductive StrictMode where
  | empty
  | drop
  | fail
deriving DecidableEq

/-- `FilterSet.default_strict_mode` (filtersets/base.py line 158). -/
def defaultStrictMode : StrictMode := .drop

/-- Result of one `get_specs` pass: the spec list, a raised aggregate
`ValidationError` (key → messages), or the `Empty` short-circuit
signal. -/
inductive SpecsOutcome where
  | ok (specs : List FilterSpec)
  | invalid (errors : List (String × List String))
  | empty
deriving DecidableEq

/-- `errors[key].extend(msgs)` on a `defaultdict(list)` (keys in
first-insertion order, messages accumulated per key). -/
def errAdd (errors : List (String × List String)) (key : String)
    (msgs : List String) : List (String × List String) :=
  if errors.any (fun e => e.1 == key) then
    errors.map (fun e => if e.1 == key then (e.1, e.2 ++ msgs) else e)
  else errors ++ [(key, msgs)]

/-- The loop of `FilterSet.get_specs` over the generated configs.  Keys
failing `validate_key` are silently skipped; `SkipFilter` is swallowed;
`ValidationError`s accumulate into the error mapping.  After the walk,
`fail` mode raises the aggregate error when any was collected, `drop`
returns the collected specs.  The `StrictMode.empty` arm — short-circuit
to the `Empty` signal on the first failure — is modelled from the spec
(see the section comment). -/
def getSpecsLoop (bl : List String) (children : FilterChildren)
    (mode : StrictMode) :
    List LookupCfg → List FilterSpec → List (String × List String) → SpecsOutcome
  | [], specs, errors =>
    if !errors.isEmpty && mode == .fail then .invalid errors else .ok specs
  | c :: rest, specs, errors =>
    if !(validateKey c.key) then getSpecsLoop bl children mode rest specs errors
    else
      match resolveRoot bl children c with
      | .ok s => getSpecsLoop bl children mode rest (specs ++ [s]) errors
      | .skip => getSpecsLoop bl children mode rest specs errors
      | .invalid msgs =>
        match mode with
        | .empty => .empty
        | _ => getSpecsLoop bl children mode rest specs (errAdd errors c.key msgs)

/-- `FilterSet.get_specs` for a querystring multi-map (the
`QueryDict.lists()` view). -/
def getSpecs (bl : List String) (children : FilterChildren) (mode : StrictMode)
    (data : List (String × List String)) : SpecsOutcome :=
  getSpecsLoop bl children mode (generateLookupConfigs data) [] []

/-! ## The in-memory backend (`url_filter/backends/plain.py`)

Item values are Python objects: strings, integers, booleans, `None`,
date/datetime values (with their calendar attributes and the
`weekday()` method result stored explicitly), lists/tuples, and
attribute-bearing objects.  A comparator raising an exception is an
`Except.error`; `Option.none` models an exception that the backend does
*not* catch (`getattr` failing for an unknown lookup), which would
propagate out of the filtering call.  `re.match` is Python's regex
engine, which the backend defers to; it is modelled by the two
uninterpreted parameters `rm` (case-sensitive) and `irm`
(IGNORECASE). -/

inductive PValue where
  | str (s : String)
  | int (n : Int)
  | bool (b : Bool)
  | null
  /-- A date/datetime: year, month, day, hour, minute, second, and the
  result of `weekday()` (0 = Monday … 6 = Sunday). -/
  | date (y mo d hh mi ss wd : Int)
  | list (xs : List PValue)
  | obj (fields : List (String × PValue))

mutual

def PValue.decEqFn : (a b : PValue) → Decidable (a = b)
  | .str a, b =>
    match b with
    | .str b' => if h : a = b' then isTrue (by rw [h]) else isFalse (by simp [h])
    | .int _ => isFalse (by simp)
    | .bool _ => isFalse (by simp)
    | .null => isFalse (by simp)
    | .date _ _ _ _ _ _ _ => isFalse (by simp)
    | .list _ => isFalse (by simp)
    | .obj _ => isFalse (by simp)
  | .int a, b =>
    match b with
    | .str _ => isFalse (by simp)
    | .int b' => if h : a = b' then isTrue (by rw [h]) else isFalse (by simp [h])
    | .bool _ => isFalse (by simp)
    | .null => isFalse (by simp)
    | .date _ _ _ _ _ _ _ => isFalse (by simp)
    | .list _ => isFalse (by simp)
    | .obj _ => isFalse (by simp)
  | .bool a, b =>
    match b with
    | .str _ => isFalse (by simp)
    | .int _ => isFalse (by simp)
    | .bool b' => if h : a = b' then isTrue (by rw [h]) else isFalse (by simp [h])
    | .null => isFalse (by simp)
    | .date _ _ _ _ _ _ _ => isFalse (by simp)
    | .list _ => isFalse (by simp)
    | .obj _ => isFalse (by simp)
  | .null, b =>
    match b with
    | .str _ => isFalse (by simp)
    | .int _ => isFalse (by simp)
    | .bool _ => isFalse (by simp)
    | .null => isTrue rfl
    | .date _ _ _ _ _ _ _ => isFalse (by simp)
    | .list _ => isFalse (by simp)
    | .obj _ => isFalse (by simp)
  | .date y mo d hh mi ss wd, b =>
    match b with
    | .str _ => isFalse (by simp)
    | .int _ => isFalse (by simp)
    | .bool _ => isFalse (by simp)
    | .null => isFalse (by simp)
    | .date y' mo' d' hh' mi' ss' wd' =>
      if h : y = y' ∧ mo = mo' ∧ d = d' ∧ hh = hh' ∧ mi = mi' ∧ ss = ss' ∧ wd = wd' then
        isTrue (by obtain ⟨h1, h2, h3, h4, h5, h6, h7⟩ := h; rw [h1, h2, h3, h4, h5, h6, h7])
      else isFalse (by simp; intro h1 h2 h3 h4 h5 h6; by_contra h7; exact h ⟨h1, h2, h3, h4, h5, h6, h7⟩)
    | .list _ => isFalse (by simp)
    | .obj _ => isFalse (by simp)
  | .list xs, b =>
    match b with
    | .str _ => isFalse (by simp)
    | .int _ => isFalse (by simp)
    | .bool _ => isFalse (by simp)
    | .null => isFalse (by simp)
    | .date _ _ _ _ _ _ _ => isFalse (by simp)
    | .list ys =>
      match PValue.decEqListFn xs ys with
      | isTrue h => isTrue (by rw [h])
      | isFalse h => isFalse (by simp [h])
    | .obj _ => isFalse (by simp)
  | .obj fs, b =>
    match b with
    | .str _ => isFalse (by simp)
    | .int _ => isFalse (by simp)
    | .bool _ => isFalse (by simp)
    | .null => isFalse (by simp)
    | .date _ _ _ _ _ _ _ => isFalse (by simp)
    | .list _ => isFalse (by simp)
    | .obj gs =>
      match PValue.decEqFieldsFn fs gs with
      | isTrue h => isTrue (by rw [h])
      | isFalse h => isFalse (by simp [h])

def PValue.decEqListFn : (xs ys : List PValue) → Decidable (xs = ys)
  | [], [] => isTrue rfl
  | [], _ :: _ => isFalse (by simp)
  | _ :: _, [] => isFalse (by simp)
  | x :: xs, y :: ys =>
    match PValue.decEqFn x y, PValue.decEqListFn xs ys with
    | isTrue h1, isTrue h2 => isTrue (by rw [h1, h2])
    | isFalse h1, _ => isFalse (by simp [h1])
    | _, isFalse h2 => isFalse (by simp [h2])

def PValue.decEqFieldsFn : (xs ys : List (String × PValue)) → Decidable (xs = ys)
  | [], [] => isTrue rfl
  | [], _ :: _ => isFalse (by simp)
  | _ :: _, [] => isFalse (by simp)
  | (k, v) :: xs, (k', v') :: ys =>
    if hk : k = k' then
      match PValue.decEqFn v v', PValue.decEqFieldsFn xs ys with
      | isTrue h1, isTrue h2 => isTrue (by rw [hk, h1, h2])
      | isFalse h1, _ => isFalse (by simp [h1])
      | _, isFalse h2 => isFalse (by simp [h2])
    else isFalse (by simp [hk])

end

instance : DecidableEq PValue := PValue.decEqFn

mutual

/-- Python `==` between an item value and a cleaned spec value: total
(never raises); `bool` compares equal to the corresponding `int`;
values of different shapes compare unequal. -/
def pyEq : PValue → Value → Bool
  | .str a, .str b => a == b
  | .int a, .int b => a == b
  | .int a, .bool b => a == (if b then (1 : Int) else 0)
  | .bool a, .int b => (if a then (1 : Int) else 0) == b
  | .bool a, .bool b => a == b
  | .null, .null => true
  | .list xs, .list ys => pyEqList xs ys
  | _, _ => false

def pyEqList : List PValue → List Value → Bool
  | [], [] => true
  | x :: xs, y :: ys => pyEq x y && pyEqList xs ys
  | _, _ => false

end

/-- Python ordering comparison between an item value and a spec value;
`none` models a `TypeError` (unorderable types). -/
def pvOrd : PValue → Value → Option Ordering
  | .int a, .int b => some (compare a b)
  | .int a, .bool b => some (compare a (if b then 1 else 0))
  | .bool a, .int b => some (compare (if a then (1 : Int) else 0) b)
  | .bool a, .bool b =>
    some (compare (if a then (1 : Int) else 0) (if b then 1 else 0))
  | .str a, .str b => some (if a < b then .lt else if a == b then .eq else .gt)
  | _, _ => none

/-- The `_compare_<lookup>` methods of `PlainFilterBackend`
(plain.py lines 108–185).  Result:
* `none` — there is no `_compare_<lookup>` method, so the `getattr` in
  `_filter_by_spec_and_value` raises outside the `try` block (uncaught);
* `some (.error ())` — the comparator raised (caught, fail-open);
* `some (.ok b)` — the comparison evaluated to `b`. -/
def pvCompare (rm irm : String → String → Bool) (lookup : String)
    (v : PValue) (sv : Value) : Option (Except Unit Bool) :=
  if lookup == "contains" then
    -- `spec.value in value`
    some (match v, sv with
          | .str s, .str t => .ok (strHasSub s t)
          | _, _ => .error ())
  else if lookup == "day" then
    some (match v with
          | .date _ _ d _ _ _ _ => .ok (pyEq (.int d) sv)
          | _ => .error ())
  else if lookup == "endswith" then
    some (match v, sv with
          | .str s, .str t => .ok (t.data.isSuffixOf s.data)
          | _, _ => .error ())
  else if lookup == "exact" then
    some (.ok (pyEq v sv))
  else if lookup == "gt" then
    some (match pvOrd v sv with
          | some o => .ok (o == .gt)
          | none => .error ())
  else if lookup == "gte" then
    some (match pvOrd v sv with
          | some o => .ok (o != .lt)
          | none => .error ())
  else if lookup == "hour" then
    some (match v with
          | .date _ _ _ hh _ _ _ => .ok (pyEq (.int hh) sv)
          | _ => .error ())
  else if lookup == "icontains" then
    -- `spec.value.lower() in value.lower()`
    some (match v, sv with
          | .str s, .str t => .ok (strHasSub (lowerStr s) (lowerStr t))
          | _, _ => .error ())
  else if lookup == "iendswith" then
    some (match v, sv with
          | .str s, .str t => .ok ((lowerStr t).data.isSuffixOf (lowerStr s).data)
          | _, _ => .error ())
  else if lookup == "iexact" then
    some (match v, sv with
          | .str s, .str t => .ok (lowerStr s == lowerStr t)
          | _, _ => .error ())
  else if lookup == "in" then
    -- `value in spec.value`
    some (match sv with
          | .list xs => .ok (xs.any (fun x => pyEq v x))
          | .str t =>
            match v with
            | .str s => .ok (strHasSub t s)
            | _ => .error ()
          | _ => .error ())
  else if lookup == "iin" then
    -- `value.lower() in [i.lower() for i in spec.value]`
    some (match v with
          | .str s =>
            match sv with
            | .list xs =>
              if xs.all (fun x => x matches .str _) then
                .ok (xs.any (fun x =>
                  match x with
                  | .str t => lowerStr s == lowerStr t
                  | _ => false))
              else .error ()
            | .str t =>
              -- iterating a string yields its one-character strings
              .ok (t.data.any (fun c => lowerStr s == (⟨[c.toLower]⟩ : String)))
            | _ => .error ()
          | _ => .error ())
  else if lookup == "iregex" then
    some (match v, sv with
          | .str s, .str pat => .ok (irm pat s)
          | _, _ => .error ())
  else if lookup == "isnull" then
    -- `value is None` / `value is not None`
    some (.ok (if sv.truthy then v == .null else v != .null))
  else if lookup == "istartswith" then
    some (match v, sv with
          | .str s, .str t => .ok ((lowerStr t).data.isPrefixOf (lowerStr s).data)
          | _, _ => .error ())
  else if lookup == "lt" then
    some (match pvOrd v sv with
          | some o => .ok (o == .lt)
          | none => .error ())
  else if lookup == "lte" then
    some (match pvOrd v sv with
          | some o => .ok (o != .gt)
          | none => .error ())
  else if lookup == "minute" then
    some (match v with
          | .date _ _ _ _ mi _ _ => .ok (pyEq (.int mi) sv)
          | _ => .error ())
  else if lookup == "month" then
    some (match v with
          | .date _ mo _ _ _ _ _ => .ok (pyEq (.int mo) sv)
          | _ => .error ())
  else if lookup == "range" then
    -- `spec.value[0] <= value <= spec.value[1]` (lazy in the second bound)
    some (match sv with
          | .list (a :: rest) =>
            match pvOrd v a with
            | none => .error ()
            | some o1 =>
              if o1 == .lt then .ok false  -- `spec.value[0] <= value` is false
              else
                match rest with
                | b :: _ =>
                  match pvOrd v b with
                  | none => .error ()
                  | some o2 => .ok (o2 != .gt)
                | [] => .error ()  -- IndexError on `spec.value[1]`
          | .list [] => .error ()  -- IndexError on `spec.value[0]`
          | .str t =>
            -- indexing a string yields its one-character strings
            match t.data with
            | a :: rest =>
              match pvOrd v (.str ⟨[a]⟩) with
              | none => .error ()
              | some o1 =>
                if o1 == .lt then .ok false
                else
                  match rest with
                  | b :: _ =>
                    match pvOrd v (.str ⟨[b]⟩) with
                    | none => .error ()
                    | some o2 => .ok (o2 != .gt)
                  | [] => .error ()
            | [] => .error ()
          | _ => .error ())
  else if lookup == "regex" then
    some (match v, sv with
          | .str s, .str pat => .ok (rm pat s)
          | _, _ => .error ())
  else if lookup == "second" then
    some (match v with
          | .date _ _ _ _ _ ss _ => .ok (pyEq (.int ss) sv)
          | _ => .error ())
  else if lookup == "startswith" then
    some (match v, sv with
          | .str s, .str t => .ok (t.data.isPrefixOf s.data)
          | _, _ => .error ())
  else if lookup == "week_day" then
    -- `((value.weekday() + 1) % 7) + 1 == spec.value` (1=Sunday … 7=Saturday)
    some (match v with
          | .date _ _ _ _ _ _ wd => .ok (pyEq (.int (((wd + 1) % 7) + 1)) sv)
          | _ => .error ())
  else if lookup == "year" then
    some (match v with
          | .date y _ _ _ _ _ _ => .ok (pyEq (.int y) sv)
          | _ => .error ())
  else none

/-- `dictify` (utils.py lines 226–237): a dict stays a dict, an object
exposes its public attributes.  Modelled: objects expose their fields;
date values expose their calendar data attributes; other scalars expose
no modelled public data attributes. -/
def dictify : PValue → List (String × PValue)
  | .obj fields => fields
  | .date y mo d hh mi ss _ =>
    [("year", .int y), ("month", .int mo), ("day", .int d),
     ("hour", .int hh), ("minute", .int mi), ("second", .int ss)]
  | _ => []

mutual

/-- Descend Python lists/tuples with the lazy existential of
`any(... for i in item)` — an exception (`none`) in an element stops the
generator, and a `True` before it short-circuits — applying `handler`
at every non-list value. -/
def pvWalk (handler : PValue → Option Bool) : PValue → Option Bool
  | .list xs => pvWalkList handler xs
  | .str s => handler (.str s)
  | .int n => handler (.int n)
  | .bool b => handler (.bool b)
  | .null => handler .null
  | .date y mo d hh mi ss wd => handler (.date y mo d hh mi ss wd)
  | .obj fields => handler (.obj fields)

def pvWalkList (handler : PValue → Option Bool) : List PValue → Option Bool
  | [] => some false
  | x :: rest =>
    match pvWalk handler x with
    | none => none
    | some true => some true
    | some false => pvWalkList handler rest

end

/-- `PlainFilterBackend._filter_by_spec_and_value` (plain.py lines
88–106): at the end of the component path, compare (fail-open on caught
comparator exceptions); on a list/tuple, existentially quantify over the
elements; otherwise `dictify` the item and walk into
`item.get(components[0], {})` (an absent attribute yields the empty
dict). -/
def filterBySpecAndValue (rm irm : String → String → Bool) (spec : FilterSpec) :
    List String → PValue → Option Bool
  | [], item =>
    pvWalk
      (fun v =>
        match pvCompare rm irm spec.lookup v spec.value with
        | none => none
        | some (.ok b) => some b
        | some (.error _) => some true)
      item
  | c :: restComps, item =>
    pvWalk
      (fun v =>
        let fields := dictify v
        let nextItem :=
          match fields.find? (fun kv => kv.1 == c) with
          | some kv => kv.2
          | none => .obj []
        filterBySpecAndValue rm irm spec restComps nextItem)
      item

/-- `PlainFilterBackend._filter_by_spec` (plain.py lines 82–86):
negation applied to the underlying comparison. -/
def filterBySpec (rm irm : String → String → Bool) (item : PValue)
    (spec : FilterSpec) : Option Bool :=
  match filterBySpecAndValue rm irm spec spec.components item with
  | none => none
  | some f => some (if spec.is_negated then !f else f)

/-- `PlainFilterBackend._filter_callable` (plain.py lines 79–80):
`all(...)`, lazily. -/
def filterAllSpecs (rm irm : String → String → Bool)
    (specs : List FilterSpec) (item : PValue) : Option Bool :=
  match specs with
  | [] => some true
  | s :: rest =>
    match filterBySpec rm irm item s with
    | none => none
    | some false => some false
    | some true => filterAllSpecs rm irm rest item

/-- `list(filter(pred, queryset))` with exception propagation. -/
def plainFilterList (pred : PValue → Option Bool) :
    List PValue → Option (List PValue)
  | [] => some []
  | x :: rest =>
    match pred x with
    | none => none
    | some true => (plainFilterList pred rest).map (x :: ·)
    | some false => plainFilterList pred rest

/-- `PlainFilterBackend.filter_by_specs` (plain.py lines 66–77). -/
def plainFilterBySpecs (rm irm : String → String → Bool)
    (specs : List FilterSpec) (qs : List PValue) : Option (List PValue) :=
  let regular := specs.filter (fun s => !s.is_callable)
  if regular.isEmpty then some qs
  else plainFilterList (fun item => filterAllSpecs rm irm regular item) qs

/-- Modelled from the spec (§4.4 together with the `Empty` handling
missing from `src/`): the caller of `get_specs` turns the `Empty`
short-circuit signal into the backend's empty representation —
`PlainFilterBackend.empty()` is the empty list — instead of filtering,
and re-raises the aggregate error of `fail` mode. -/
def filterRequestPlain (rm irm : String → String → Bool)
    (children : FilterChildren) (mode : StrictMode)
    (data : List (String × List String)) (qs : List PValue) :
    Except (List (String × List String)) (Option (List PValue)) :=
  match getSpecs plainSupportedLookups children mode data with
  | .invalid errs => .error errs
  | .empty => .ok (some [])
  | .ok specs => .ok (plainFilterBySpecs rm irm specs qs)

/-! ## The Django queryset backends

A queryset is modelled as a list of rows of an abstract type `Row`; the
ORM's evaluation of one `field__path__lookup=value` condition on a row
is the uninterpreted parameter `matches`.  `QuerySet.filter(**kw)` keeps
the rows matching *all* conditions; `QuerySet.exclude(**kw)` removes the
rows matching all conditions; `QuerySet.distinct()` removes duplicate
rows.  Both backends build their keyword dictionaries with Python dict
comprehensions: keys appear in first-insertion order and a later spec
with the same prepared key overwrites the value. -/

/-- `DjangoFilterBackend._prepare_spec`:
`LOOKUP_SEP.join(spec.components) + LOOKUP_SEP + spec.lookup`. -/
def prepareSpec (s : FilterSpec) : String :=
  joinSep "__" s.components ++ "__" ++ s.lookup

/-- Python dict comprehension over a pair list: first-insertion key
order, last-written value per key. -/
def buildDict (ps : List (String × Value)) : List (String × Value) :=
  ps.foldl
    (fun d kv =>
      if d.any (fun e => e.1 == kv.1) then
        d.map (fun e => if e.1 == kv.1 then (e.1, kv.2) else e)
      else d ++ [kv])
    []

/-- `BaseFilterBackend.regular_specs`: the non-callable specs. -/
def regularSpecs (specs : List FilterSpec) : List FilterSpec :=
  specs.filter (fun s => !s.is_callable)

/-- `{self._prepare_spec(i): i.value for i in self.includes}`. -/
def includeDict (specs : List FilterSpec) : List (String × Value) :=
  buildDict (((regularSpecs specs).filter (fun s => !s.is_negated)).map
    (fun s => (prepareSpec s, s.value)))

/-- `{self._prepare_spec(i): i.value for i in self.excludes}`. -/
def excludeDict (specs : List FilterSpec) : List (String × Value) :=
  buildDict (((regularSpecs specs).filter (fun s => s.is_negated)).map
    (fun s => (prepareSpec s, s.value)))

/-- `QuerySet.distinct()` on the list model: keep the first occurrence
of each row. -/
def dedupSeen {Row : Type} [DecidableEq Row] :
    List Row → List Row → List Row
  | _, [] => []
  | seen, x :: rest =>
    if x ∈ seen then dedupSeen seen rest
    else x :: dedupSeen (x :: seen) rest

def dedupKeepFirst {Row : Type} [DecidableEq Row] (l : List Row) : List Row :=
  dedupSeen [] l

/-- `DjangoFilterBackend.filter_by_specs` of **`url_filter`**
(`src/url_filter/backends/django.py` lines 87–102): one `filter` call
with all includes, one `exclude` call with **all** excludes combined
(so several negated specs exclude only rows matching their
conjunction), then `distinct()` unconditionally. -/
def filterBySpecsUF {Row : Type} [DecidableEq Row]
    (ms : Row → String → Value → Bool)
    (specs : List FilterSpec) (qs : List Row) : List Row :=
  let inc := includeDict specs
  let exc := excludeDict specs
  let qs1 :=
    if inc.isEmpty then qs
    else qs.filter (fun r => inc.all (fun kv => ms r kv.1 kv.2))
  let qs2 :=
    if exc.isEmpty then qs1
    else qs1.filter (fun r => !(exc.all (fun kv => ms r kv.1 kv.2)))
  dedupKeepFirst qs2

/-- `DjangoFilterBackend.filter_by_specs` of **`django_ufilter`**
(`src/django_ufilter/backends/django.py` lines 89–110): one `filter`
call with all includes, then one chained `exclude` call **per entry** of
the exclude dictionary, then `distinct()` only when some regular spec
traverses a to-many relationship (`isToMany`, from the model metadata)
and at least one condition was applied. -/
def filterBySpecsDU {Row : Type} [DecidableEq Row]
    (ms : Row → String → Value → Bool)
    (isToMany : List String → Bool)
    (specs : List FilterSpec) (qs : List Row) : List Row :=
  let inc := includeDict specs
  let exc := excludeDict specs
  let qs1 :=
    if inc.isEmpty then qs
    else qs.filter (fun r => inc.all (fun kv => ms r kv.1 kv.2))
  let qs2 :=
    exc.foldl (fun acc kv => acc.filter (fun r => !(ms r kv.1 kv.2))) qs1
  let toMany := (regularSpecs specs).any (fun s => isToMany s.components)
  if toMany && (!inc.isEmpty || !exc.isEmpty) then dedupKeepFirst qs2 else qs2

/-- Modelled from the spec (§4.5): the backend contract's reading of
regular-spec application — keep a row iff it matches every non-negated
spec's condition and fails every negated spec's condition individually
(`NOT A and NOT B`, intersected independent negations). -/
def specIndependentApply {Row : Type}
    (ms : Row → String → Value → Bool)
    (specs : List FilterSpec) (qs : List Row) : List Row :=
  let regular := regularSpecs specs
  qs.filter (fun r =>
    (regular.filter (fun s => !s.is_negated)).all
      (fun s => ms r (prepareSpec s) s.value) &&
    (regular.filter (fun s => s.is_negated)).all
      (fun s => !(ms r (prepareSpec s) s.value)))

/-! ## Declared filter templates and per-request binding
(`FilterSet.get_filters` / `FilterSet.filters`, filtersets/base.py lines
200–229)

Python objects live on a heap; `deepcopy(self._declared_filters)`
allocates fresh copies of the declared filter objects, and the `filters`
cached property then calls `bind(name, self)` on each **copy**,
mutating `name`, `parent` and `is_bound` in place.  The heap is
modelled explicitly to state the frame property: the class-level
templates are never written. -/

/-- The mutable state of a `BaseFilter` object touched by `bind`. -/
structure FilterObj where
  name : Option String
  parent : Option Nat
  is_bound : Bool
deriving DecidableEq

/-- A heap of filter objects: contents at each address, and the next
fresh address. -/
structure Heap where
  objs : Nat → FilterObj
  next : Nat

/-- `deepcopy(self._declared_filters)`: allocate a fresh object per
declared entry, copying the template's state.  (Unbound templates carry
no object references, so the copy of each is just its field values.) -/
def deepcopyFilters : List (String × Nat) → Heap → List (String × Nat) × Heap
  | [], h => ([], h)
  | (nm, a) :: rest, h =>
    let fresh := h.next
    let h1 : Heap := ⟨fun x => if x == fresh then h.objs a else h.objs x, h.next + 1⟩
    let (copies, h2) := deepcopyFilters rest h1
    ((nm, fresh) :: copies, h2)

/-- `BaseFilter.bind(name, parent)` (filters.py lines 127–137) on the
object at address `a`. -/
def bindAt (h : Heap) (a : Nat) (nm : String) (parentAddr : Nat) : Heap :=
  ⟨fun x => if x == a then ⟨some nm, some parentAddr, true⟩ else h.objs x, h.next⟩

/-- The `filters` cached property: deep-copy the declared templates,
then bind every copy to its name and the owning filterset. -/
def filtersAccess (decl : List (String × Nat)) (selfAddr : Nat) (h : Heap) :
    List (String × Nat) × Heap :=
  let ch := deepcopyFilters decl h
  (ch.1, ch.1.foldl (fun hh nd => bindAt hh nd.2 nd.1 selfAddr) ch.2)

/-- One filtering request's effect on the heap (each request
instantiates a fresh `FilterSet`, here identified by its address). -/
def requestStep (decl : List (String × Nat)) (selfAddr : Nat) (h : Heap) : Heap :=
  (filtersAccess decl selfAddr h).2

/-- Any number of filtering requests in sequence. -/
def runRequests (decl : List (String × Nat)) : List Nat → Heap → Heap
  | [], h => h
  | s :: rest, h => runRequests decl rest (requestStep decl s h)

/-! ## Statement vocabulary

Auxiliary definitions used to state the theorems: per-config outcome
classification for the `get_specs` walk, the negation-flag rewrite, and
a decidable sufficient condition for key-independent cleaning. -/

/-- Whether one config contributes an error to the `get_specs`
aggregate: its key passes validation and resolution raises a
`ValidationError`. -/
def cfgFails (bl : List String) (children : FilterChildren) (c : LookupCfg) : Bool :=
  validateKey c.key &&
    match resolveRoot bl children c with
    | .invalid _ => true
    | _ => false

/-- The spec produced by one config, if any. -/
def cfgSpec (bl : List String) (children : FilterChildren) (c : LookupCfg) :
    Option FilterSpec :=
  if !(validateKey c.key) then none
  else
    match resolveRoot bl children c with
    | .ok s => some s
    | _ => none

/-- The (key, messages) error contributed by one config, if any. -/
def cfgErr (bl : List String) (children : FilterChildren) (c : LookupCfg) :
    Option (String × List String) :=
  if !(validateKey c.key) then none
  else
    match resolveRoot bl children c with
    | .invalid msgs => some (c.key, msgs)
    | _ => none

/-- Overwrite the negation flag of a produced spec; errors unchanged. -/
def ResolveResult.setNeg (b : Bool) : ResolveResult → ResolveResult
  | .ok s => .ok { s with is_negated := b }
  | .skip => .skip
  | .invalid m => .invalid m

/-- The value a *leaf* filter would submit to `clean` is a raw scalar:
either the data is scalar (default-lookup path), or it is a one-entry
mapping whose value is scalar.  (Multi-entry mappings fail before
cleaning, so they are key-independent as well.) -/
def scalarCleanData : ConfigData → Bool
  | .leaf _ => true
  | .node entries =>
    match entries with
    | [(_, .leaf _)] => true
    | [(_, .node _)] => false
    | _ => true

mutual

/-- Decidable sufficient condition for the resolution of `data` through
`d` to never hand a nested mapping to a form field's `clean` (mirrors
the branching of `resolveDef`). -/
def scalarCleanDef : FilterDef → Bool → ConfigData → Bool
  | .leaf _, _, data => scalarCleanData data
  | .fset _ children, isRoot, data =>
    let nv : Option (String × ConfigData) :=
      match data with
      | .node entries =>
        match entries with
        | (n, v) :: _ => some (n, v)
        | [] => none
      | .leaf s =>
        match defaultChild children with
        | none => none
        | some (dn, dd) => some ((dd.src).getD dn, .leaf s)
    match nv with
    | none => true
    | some (name, value) =>
      match scalarCleanFind children name value with
      | some b => b
      | none =>
        match defaultChild children with
        | some (_, _) => if isRoot then true else scalarCleanData data
        | none => true

def scalarCleanFind : FilterChildren → String → ConfigData → Option Bool
  | .nil, _, _ => none
  | .cons n d rest, name, value =>
    if n == name then some (scalarCleanDef d false value)
    else scalarCleanFind rest name value

end

/-! ## A concrete declared filterset

The two-level filterset used by the repository's own tests
(`tests/filtersets/test_base.py`): a root with a default `CharField`
filter `field` and a nested filterset `bar` holding a default
`IntegerField` filter `id`, a sourced `CharField` filter `other`, and a
bounded `IntegerField` filter `thing`. -/

def demoBarChildren : FilterChildren :=
  .cons "id" (.leaf ⟨none, .integerField true none none, none, "exact", true, false⟩)
    (.cons "other" (.leaf ⟨some "stuff", .charField true none, none, "contains", false, false⟩)
      (.cons "thing"
        (.leaf ⟨none, .integerField true (some 0) (some 15), none, "exact", false, false⟩)
        .nil))

def demoRootChildren : FilterChildren :=
  .cons "field" (.leaf ⟨none, .charField true none, none, "exact", true, false⟩)
    (.cons "bar" (.fset none demoBarChildren) .nil)

/-! # Theorems -/

/-! ## C5 — `FilterSpec` equality and hashing -/

/-- **C5 — counterexample.**  `FilterSpec` equality is *not* structural
over the tuple (path_components, lookup, value, is_negated): the specs
with components `["a", "b"]` and `["a.b"]` (same lookup, value and
negation) have identical reprs — both print the dot-join `a.b` — hence
identical hashes, and `__eq__` makes them compare equal even though
their `path_components` differ. -/
theorem c5_counterexample :
    FilterSpec.specEq ⟨["a", "b"], "exact", .str "v", false, none⟩
        ⟨["a.b"], "exact", .str "v", false, none⟩ = true ∧
      (⟨["a", "b"], "exact", .str "v", false, none⟩ : FilterSpec).components ≠
        (⟨["a.b"], "exact", .str "v", false, none⟩ : FilterSpec).components := by
  decide

/-- **C5 — amended.**  Equality and hashing of `FilterSpec` are by the
repr string (components dot-joined, `NOT ` fused with the lookup, the
value's repr, and the callable tag): two specs with identical
(path_components, lookup, value, is_negated) and the same
`filter_callable` always compare equal, and two specs compare equal
exactly when their hashes (modelled by the repr strings) coincide —
which specs differing in `path_components` can also achieve. -/
theorem c5_theorem :
    (∀ a b : FilterSpec,
        a.components = b.components → a.lookup = b.lookup →
        a.value = b.value → a.is_negated = b.is_negated →
        a.filter_callable = b.filter_callable →
        FilterSpec.specEq a b = true) ∧
      (∀ a b : FilterSpec,
        FilterSpec.specEq a b = true ↔ a.hashStr = b.hashStr) := by
  refine ⟨?_, ?_⟩
  · intro a b h1 h2 h3 h4 h5
    have hab : a = b := by cases a; cases b; simp_all
    simp [hab, FilterSpec.specEq]
  · intro a b
    simp [FilterSpec.specEq]

/-- Witness for C5's amended theorem at a concrete pair of specs. -/
theorem c5_witness :
    FilterSpec.specEq ⟨["x"], "exact", .int 1, false, none⟩
      ⟨["x"], "exact", .int 1, false, none⟩ = true :=
  c5_theorem.1 _ _ rfl rfl rfl rfl rfl

/-! ## C7 — lookup-config generation -/

/-- The source's right fold (`chainOf`) produces exactly the spec's
strictly nested single-branch mapping over the split segments. -/
theorem chainOf_eq_specNestedChain (key v : String) :
    chainOf key v = specNestedChain (pySplitDunder (stripNeg key)) v := by
  unfold chainOf
  generalize pySplitDunder (stripNeg key) = segs
  induction segs with
  | nil => rfl
  | cons s rest ih => simp [specNestedChain, ih]

theorem singleBranch_specNestedChain (segs : List String) (v : String) :
    (specNestedChain segs v).singleBranch = true := by
  induction segs with
  | nil => rfl
  | cons s rest ih => simpa [specNestedChain, ConfigData.singleBranch] using ih

/-- **C7 — confirmed.**  For every querystring key and value list,
`_generate_lookup_configs` yields one independent config per value
(duplicates are never merged), each being the strictly nested
single-branch chain `{s1: {s2: … {sn: v}}}` over the segments of the
`!`-stripped key; every non-leaf level of each produced config is a
one-entry mapping. -/
theorem c7_theorem :
    (∀ (key : String) (vs : List String),
        generateLookupConfigs [(key, vs)] =
          vs.map (fun v => ⟨key, specNestedChain (pySplitDunder (stripNeg key)) v⟩)) ∧
      (∀ (key : String) (vs : List String),
        (generateLookupConfigs [(key, vs)]).length = vs.length) ∧
      (∀ (key : String) (vs : List String) (c : LookupCfg),
        c ∈ generateLookupConfigs [(key, vs)] →
        ConfigData.singleBranch c.data = true) := by
  refine ⟨?_, ?_, ?_⟩
  · intro key vs
    simp [generateLookupConfigs, chainOf_eq_specNestedChain]
  · intro key vs
    simp [generateLookupConfigs]
  · intro key vs c hc
    simp [generateLookupConfigs] at hc
    obtain ⟨v, _, rfl⟩ := hc
    simpa [chainOf_eq_specNestedChain] using singleBranch_specNestedChain _ v

/-- Witness for C7 at the key `a__b` with a duplicated value. -/
theorem c7_witness :
    (⟨"a__b", chainOf "a__b" "v"⟩ : LookupCfg) ∈
        generateLookupConfigs [("a__b", ["v", "w"])] ∧
      ConfigData.singleBranch
        ((⟨"a__b", chainOf "a__b" "v"⟩ : LookupCfg)).data = true :=
  ⟨by decide, c7_theorem.2.2 "a__b" ["v", "w"] _ (by decide)⟩

/-! ## C10 — existential semantics over multi-valued attributes -/

theorem pvWalkList_some (handler : PValue → Option Bool) (xs : List PValue)
    (b : Bool) (h : pvWalkList handler xs = some b) :
    (b = true ↔ ∃ x ∈ xs, pvWalk handler x = some true) := by
  induction xs generalizing b with
  | nil =>
    simp [pvWalkList] at h
    simp [← h]
  | cons x rest ih =>
    rw [pvWalkList] at h
    cases hx : pvWalk handler x with
    | none => rw [hx] at h; exact absurd h (by simp)
    | some bx =>
      rw [hx] at h
      cases bx with
      | true =>
        simp at h
        subst h
        exact ⟨fun _ => ⟨x, by simp [hx]⟩, fun _ => rfl⟩
      | false =>
        simp at h
        rw [ih b h]
        constructor
        · rintro ⟨y, hy, hyt⟩; exact ⟨y, by simp [hy], hyt⟩
        · rintro ⟨y, hy, hyt⟩
          rcases List.mem_cons.mp hy with rfl | hy'
          · rw [hx] at hyt; exact absurd hyt (by simp)
          · exact ⟨y, hy', hyt⟩

/-- At a list/tuple value, `_filter_by_spec_and_value` is the lazy
existential over the elements, whatever the remaining components. -/
theorem filterBySpecAndValue_list_iff (rm irm : String → String → Bool)
    (spec : FilterSpec) (comps : List String) (xs : List PValue) (b : Bool)
    (h : filterBySpecAndValue rm irm spec comps (.list xs) = some b) :
    (b = true ↔ ∃ x ∈ xs,
      filterBySpecAndValue rm irm spec comps x = some true) := by
  cases comps with
  | nil =>
    rw [filterBySpecAndValue, pvWalk] at h
    rw [pvWalkList_some _ _ _ h]
    constructor
    · rintro ⟨y, hy, hyt⟩
      exact ⟨y, hy, by rw [filterBySpecAndValue]; exact hyt⟩
    · rintro ⟨y, hy, hyt⟩
      rw [filterBySpecAndValue] at hyt
      exact ⟨y, hy, hyt⟩
  | cons c rest =>
    rw [filterBySpecAndValue, pvWalk] at h
    rw [pvWalkList_some _ _ _ h]
    constructor
    · rintro ⟨y, hy, hyt⟩
      exact ⟨y, hy, by rw [filterBySpecAndValue]; exact hyt⟩
    · rintro ⟨y, hy, hyt⟩
      rw [filterBySpecAndValue] at hyt
      exact ⟨y, hy, hyt⟩

/-- **C10 — confirmed.**  In the plain backend, when the walk of a
specification's path components reaches a list or tuple value, the
underlying (pre-negation) comparison is satisfied iff at least one
element satisfies the remaining components and lookup; consequently, a
negated specification drops a list-valued item exactly when some
element matches. -/
theorem c10_theorem :
    (∀ (rm irm : String → String → Bool) (spec : FilterSpec)
        (comps : List String) (xs : List PValue) (b : Bool),
        filterBySpecAndValue rm irm spec comps (.list xs) = some b →
        (b = true ↔ ∃ x ∈ xs,
          filterBySpecAndValue rm irm spec comps x = some true)) ∧
      (∀ (rm irm : String → String → Bool) (spec : FilterSpec)
        (xs : List PValue) (r : Bool),
        spec.is_negated = true →
        filterBySpec rm irm (.list xs) spec = some r →
        (r = false ↔ ∃ x ∈ xs,
          filterBySpecAndValue rm irm spec spec.components x = some true)) := by
  refine ⟨fun rm irm spec comps xs b h =>
    filterBySpecAndValue_list_iff rm irm spec comps xs b h, ?_⟩
  intro rm irm spec xs r hneg h
  rw [filterBySpec] at h
  cases hu : filterBySpecAndValue rm irm spec spec.components (.list xs) with
  | none => rw [hu] at h; exact absurd h (by simp)
  | some f =>
    rw [hu] at h
    simp [hneg] at h
    rw [← filterBySpecAndValue_list_iff rm irm spec spec.components xs f hu]
    cases f <;> simp_all

/-- Witness for C10 at a concrete negated spec over a two-element
list value. -/
theorem c10_witness :
    (false = false ↔ ∃ x ∈ [PValue.str "nope", PValue.int 1],
      filterBySpecAndValue (fun _ _ => false) (fun _ _ => false)
        ⟨[], "exact", .int 1, true, none⟩ [] x = some true) :=
  c10_theorem.2 (fun _ _ => false) (fun _ _ => false)
    ⟨[], "exact", .int 1, true, none⟩ [PValue.str "nope", PValue.int 1]
    false rfl (by decide)

/-! ## C4 — fail-open on comparator exceptions -/

/-- **C4 — counterexample.**  The fail-open policy only holds *before*
negation: for a negated regular `week_day` spec evaluated against a
plain integer the comparator raises, the caught exception yields `True`,
negation turns it into `False`, and the item is **excluded** — so "for
every regular specification … the item is kept" is false. -/
theorem c4_counterexample :
    plainFilterBySpecs (fun _ _ => false) (fun _ _ => false)
        [⟨[], "week_day", .int 3, true, none⟩] [.int 5] = some [] ∧
      pvCompare (fun _ _ => false) (fun _ _ => false) "week_day"
        (.int 5) (.int 3) = some (.error ()) ∧
      (⟨[], "week_day", .int 3, true, none⟩ : FilterSpec).is_callable = false := by
  refine ⟨by decide, by decide, by decide⟩

/-- **C4 — amended.**  For every item value at the end of the component
walk and every **non-negated** regular specification, a comparator
exception (type mismatch, attribute absence, …) is caught and treated as
"the filter does not exclude this item": the underlying evaluation
returns `True` and the item is kept.  In particular the `week_day`
lookup against a plain integer keeps the item (Scenario E).  (For
negated specifications the caught exception excludes the item — see the
counterexample.) -/
theorem c4_theorem :
    (∀ (rm irm : String → String → Bool) (spec : FilterSpec) (v : PValue),
        spec.is_negated = false →
        (v matches .list _) = False →
        pvCompare rm irm spec.lookup v spec.value = some (.error ()) →
        filterBySpecAndValue rm irm spec [] v = some true ∧
          (spec.components = [] → filterBySpec rm irm v spec = some true)) ∧
      plainFilterBySpecs (fun _ _ => false) (fun _ _ => false)
        [⟨[], "week_day", .int 3, false, none⟩] [.int 5] = some [.int 5] := by
  refine ⟨?_, by decide⟩
  intro rm irm spec v hneg hv hcmp
  have hbase : filterBySpecAndValue rm irm spec [] v = some true := by
    cases v <;> simp_all [filterBySpecAndValue, pvWalk]
  refine ⟨hbase, fun hcomps => ?_⟩
  simp [filterBySpec, hcomps, hbase, hneg]

/-- Witness for C4's amended theorem: Scenario E's `week_day` lookup
against the integer `5`. -/
theorem c4_witness :
    filterBySpecAndValue (fun _ _ => false) (fun _ _ => false)
        ⟨[], "week_day", .int 3, false, none⟩ [] (.int 5) = some true ∧
      filterBySpec (fun _ _ => false) (fun _ _ => false) (.int 5)
        ⟨[], "week_day", .int 3, false, none⟩ = some true :=
  ⟨(c4_theorem.1 _ _ _ _ rfl (by simp) (by decide)).1,
   (c4_theorem.1 _ _ _ _ rfl (by simp) (by decide)).2 rfl⟩

/-! ## C1 — negation semantics of the Django backends -/

theorem mem_dedupSeen {Row : Type} [DecidableEq Row] (a : Row) :
    ∀ (l seen : List Row), a ∈ dedupSeen seen l ↔ (a ∈ l ∧ a ∉ seen) := by
  intro l
  induction l with
  | nil => intro seen; simp [dedupSeen]
  | cons x rest ih =>
    intro seen
    rw [dedupSeen]
    by_cases hx : x ∈ seen
    · rw [if_pos hx, ih]
      constructor
      · rintro ⟨h1, h2⟩; exact ⟨List.mem_cons_of_mem _ h1, h2⟩
      · rintro ⟨h1, h2⟩
        rcases List.mem_cons.mp h1 with rfl | h1'
        · exact absurd hx h2
        · exact ⟨h1', h2⟩
    · rw [if_neg hx]
      simp only [List.mem_cons, ih (x :: seen)]
      by_cases hax : a = x
      · subst hax; simp [hx]
      · simp [hax]

theorem mem_dedupKeepFirst {Row : Type} [DecidableEq Row] (a : Row)
    (l : List Row) : a ∈ dedupKeepFirst l ↔ a ∈ l := by
  simp [dedupKeepFirst, mem_dedupSeen]

/-- Membership in the chained-`exclude` fold: a row survives iff it
survives the incoming queryset and fails every exclude condition. -/
theorem mem_excludeFold {Row : Type} [DecidableEq Row]
    (ms : Row → String → Value → Bool) (r : Row) :
    ∀ (exc : List (String × Value)) (qs : List Row),
      r ∈ exc.foldl (fun acc kv => acc.filter (fun x => !(ms x kv.1 kv.2))) qs ↔
        (r ∈ qs ∧ ∀ kv ∈ exc, ms r kv.1 kv.2 = false) := by
  intro exc
  induction exc with
  | nil => intro qs; simp
  | cons kv rest ih =>
    intro qs
    rw [List.foldl_cons, ih]
    simp only [List.mem_filter, List.mem_cons, Bool.not_eq_true']
    constructor
    · rintro ⟨⟨h1, h2⟩, h3⟩
      exact ⟨h1, fun e he => by rcases he with rfl | he'; exact h2; exact h3 e he'⟩
    · rintro ⟨h1, h2⟩
      exact ⟨⟨h1, h2 kv (Or.inl rfl)⟩, fun e he => h2 e (Or.inr he)⟩

/-- **C1 — amended.**  The claimed intersected-independent-negation
semantics holds for the **`django_ufilter`** Django backend: a row is in
`filter_by_specs`'s result iff it is in the queryset, satisfies every
entry of the include dictionary, and fails every entry of the exclude
dictionary individually (negated specs sharing a prepared
`path__lookup` key are first collapsed last-wins by the dict
comprehension).  The legacy **`url_filter`** backend instead issues one
combined exclusion — `NOT (A and B)` — over all negated specs (see the
counterexample).  Scenario D (one non-negated `startswith` spec matching
only row 1, one negated `contains` spec matching only row 2) returns
exactly row 1 under **both** backends. -/
theorem c1_theorem :
    (∀ (Row : Type) [DecidableEq Row] (ms : Row → String → Value → Bool)
        (isToMany : List String → Bool) (specs : List FilterSpec)
        (qs : List Row) (r : Row),
        r ∈ filterBySpecsDU ms isToMany specs qs ↔
          (r ∈ qs ∧ (∀ kv ∈ includeDict specs, ms r kv.1 kv.2 = true) ∧
            (∀ kv ∈ excludeDict specs, ms r kv.1 kv.2 = false))) ∧
      filterBySpecsUF
        (fun (r : Nat) (k : String) (_ : Value) =>
          (r == 1 && k == "name__startswith") || (r == 2 && k == "address__contains"))
        [⟨["name"], "startswith", .str "Demon", false, none⟩,
         ⟨["address"], "contains", .str "Ashland", true, none⟩] [1, 2] = [1] ∧
      filterBySpecsDU
        (fun (r : Nat) (k : String) (_ : Value) =>
          (r == 1 && k == "name__startswith") || (r == 2 && k == "address__contains"))
        (fun _ => false)
        [⟨["name"], "startswith", .str "Demon", false, none⟩,
         ⟨["address"], "contains", .str "Ashland", true, none⟩] [1, 2] = [1] := by
  refine ⟨?_, by decide, by decide⟩
  intro Row inst ms isToMany specs qs r
  unfold filterBySpecsDU
  have hq1 : ∀ (qs' : List Row),
      (r ∈ if (includeDict specs).isEmpty then qs'
        else qs'.filter (fun x => (includeDict specs).all (fun kv => ms x kv.1 kv.2))) ↔
        (r ∈ qs' ∧ ∀ kv ∈ includeDict specs, ms r kv.1 kv.2 = true) := by
    intro qs'
    by_cases h : (includeDict specs).isEmpty
    · rw [List.isEmpty_iff] at h
      simp [h]
    · rw [if_neg (by simpa using h)]
      simp [List.mem_filter, List.all_eq_true]
  by_cases ht :
      ((regularSpecs specs).any (fun s => isToMany s.components) &&
        (!(includeDict specs).isEmpty || !(excludeDict specs).isEmpty)) = true
  · rw [if_pos ht, mem_dedupKeepFirst, mem_excludeFold, hq1, and_assoc]
  · rw [if_neg ht, mem_excludeFold, hq1, and_assoc]

/-- Witness for C1's amended theorem at Scenario D's concrete data. -/
theorem c1_witness :
    (1 ∈ filterBySpecsDU
        (fun (r : Nat) (k : String) (_ : Value) =>
          (r == 1 && k == "name__startswith") || (r == 2 && k == "address__contains"))
        (fun _ => false)
        [⟨["name"], "startswith", .str "Demon", false, none⟩,
         ⟨["address"], "contains", .str "Ashland", true, none⟩] [1, 2]) ↔
      ((1 : Nat) ∈ [1, 2] ∧
        (∀ kv ∈ includeDict
            [⟨["name"], "startswith", .str "Demon", false, none⟩,
             ⟨["address"], "contains", .str "Ashland", true, none⟩],
          (fun (r : Nat) (k : String) (_ : Value) =>
            (r == 1 && k == "name__startswith") || (r == 2 && k == "address__contains"))
            1 kv.1 kv.2 = true) ∧
        (∀ kv ∈ excludeDict
            [⟨["name"], "startswith", .str "Demon", false, none⟩,
             ⟨["address"], "contains", .str "Ashland", true, none⟩],
          (fun (r : Nat) (k : String) (_ : Value) =>
            (r == 1 && k == "name__startswith") || (r == 2 && k == "address__contains"))
            1 kv.1 kv.2 = false)) :=
  c1_theorem.1 Nat _ _ _ _ _

/-- **C1 — counterexample.**  Two negated specs on different columns,
one row matching only the first: the `url_filter` backend's single
combined `exclude` keeps the row (it fails the conjunction), while the
claimed intersected independent negations (the spec-side semantics)
drop it. -/
theorem c1_counterexample :
    filterBySpecsUF
        (fun (r : Nat) (k : String) (_ : Value) => r == 0 && k == "a__exact")
        [⟨["a"], "exact", .str "x", true, none⟩,
         ⟨["b"], "exact", .str "x", true, none⟩] [0] = [0] ∧
      specIndependentApply
        (fun (r : Nat) (k : String) (_ : Value) => r == 0 && k == "a__exact")
        [⟨["a"], "exact", .str "x", true, none⟩,
         ⟨["b"], "exact", .str "x", true, none⟩] [0] = [] ∧
      ([0] : List Nat) ≠ [] := by
  refine ⟨by decide, by decide, by decide⟩

/-! ## C9 — per-request deep copy leaves the templates untouched -/

theorem deepcopy_next : ∀ (decl : List (String × Nat)) (h : Heap),
    (deepcopyFilters decl h).2.next = h.next + decl.length := by
  intro decl
  induction decl with
  | nil => intro h; rfl
  | cons nd rest ih =>
    intro h
    obtain ⟨nm, a⟩ := nd
    simp only [deepcopyFilters]
    rw [ih]
    simp
    omega

theorem deepcopy_frame : ∀ (decl : List (String × Nat)) (h : Heap) (a : Nat),
    a < h.next → (deepcopyFilters decl h).2.objs a = h.objs a := by
  intro decl
  induction decl with
  | nil => intro h a _; rfl
  | cons nd rest ih =>
    intro h a ha
    obtain ⟨nm, b⟩ := nd
    simp only [deepcopyFilters]
    rw [ih _ a (by simp; omega)]
    simp
    intro hEq
    omega

theorem deepcopy_addrs : ∀ (decl : List (String × Nat)) (h : Heap)
    (nd : String × Nat), nd ∈ (deepcopyFilters decl h).1 →
    h.next ≤ nd.2 ∧ nd.2 < h.next + decl.length := by
  intro decl
  induction decl with
  | nil => intro h nd hmem; simp [deepcopyFilters] at hmem
  | cons e rest ih =>
    intro h nd hmem
    obtain ⟨nm, b⟩ := e
    simp only [deepcopyFilters] at hmem
    rcases List.mem_cons.mp hmem with rfl | hmem'
    · simp only [List.length_cons]; omega
    · have := ih _ nd hmem'
      simp at this
      simp
      omega

/-- The addresses of the copies are strictly increasing (hence
pairwise distinct). -/
theorem deepcopy_increasing : ∀ (decl : List (String × Nat)) (h : Heap),
    List.Pairwise (fun x y => x.2 < y.2) (deepcopyFilters decl h).1 := by
  intro decl
  induction decl with
  | nil => intro h; simp [deepcopyFilters]
  | cons e rest ih =>
    intro h
    obtain ⟨nm, b⟩ := e
    simp only [deepcopyFilters]
    refine List.Pairwise.cons ?_ (ih _)
    intro nd hmem
    have := deepcopy_addrs rest _ nd hmem
    simp at this ⊢
    omega

theorem bindFold_next : ∀ (cps : List (String × Nat)) (h : Heap) (selfAddr : Nat),
    (cps.foldl (fun hh nd => bindAt hh nd.2 nd.1 selfAddr) h).next = h.next := by
  intro cps
  induction cps with
  | nil => intro h s; rfl
  | cons nd rest ih => intro h s; rw [List.foldl_cons, ih]; rfl

theorem bindFold_frame : ∀ (cps : List (String × Nat)) (h : Heap)
    (selfAddr a : Nat), (∀ nd ∈ cps, nd.2 ≠ a) →
    (cps.foldl (fun hh nd => bindAt hh nd.2 nd.1 selfAddr) h).objs a = h.objs a := by
  intro cps
  induction cps with
  | nil => intro h s a _; rfl
  | cons nd rest ih =>
    intro h s a hne
    rw [List.foldl_cons, ih _ _ _ (fun e he => hne e (List.mem_cons_of_mem _ he))]
    have hne' : nd.2 ≠ a := hne nd (List.mem_cons_self _ _)
    simp [bindAt, Ne.symm hne']

/-- After the binding fold, every copy with a pairwise-distinct address
holds its bound state. -/
theorem bindFold_sets : ∀ (cps : List (String × Nat)) (h : Heap)
    (selfAddr : Nat), List.Pairwise (fun x y => x.2 < y.2) cps →
    ∀ nd ∈ cps,
      (cps.foldl (fun hh nd => bindAt hh nd.2 nd.1 selfAddr) h).objs nd.2 =
        ⟨some nd.1, some selfAddr, true⟩ := by
  intro cps
  induction cps with
  | nil => intro h s _ nd hmem; simp at hmem
  | cons e rest ih =>
    intro h s hpw nd hmem
    have hpw' := List.pairwise_cons.mp hpw
    rcases List.mem_cons.mp hmem with rfl | hmem'
    · rw [List.foldl_cons,
        bindFold_frame rest _ s nd.2 (fun x hx => Nat.ne_of_gt (hpw'.1 x hx))]
      simp [bindAt]
    · exact ih _ s hpw'.2 nd hmem'

/-- One `filters` access does not write any address below the incoming
heap frontier, and leaves the frontier no lower. -/
theorem filtersAccess_frame (decl : List (String × Nat)) (selfAddr : Nat)
    (h : Heap) (a : Nat) (ha : a < h.next) :
    (filtersAccess decl selfAddr h).2.objs a = h.objs a ∧
      h.next ≤ (filtersAccess decl selfAddr h).2.next := by
  unfold filtersAccess
  constructor
  · rw [bindFold_frame _ _ _ _
      (fun nd hnd => Nat.ne_of_gt (lt_of_lt_of_le ha (deepcopy_addrs decl h nd hnd).1))]
    exact deepcopy_frame decl h a ha
  · rw [bindFold_next, deepcopy_next]
    omega

/-- **C9 — confirmed.**  Binding happens on a fresh deep copy per
filtering request: after any number of `filters` accesses (one per
request, each binding names and parents), every class-level declared
template object is bit-for-bit unchanged — in particular a template that
started unbound (no name, no parent, `is_bound=False`) stays that way —
while each request's returned copies are the ones bound to their names
and the requesting filterset. -/
theorem c9_theorem :
    ∀ (selfs : List Nat) (decl : List (String × Nat)) (h : Heap),
      (∀ nd ∈ decl, nd.2 < h.next) →
      ((∀ nd ∈ decl, (runRequests decl selfs h).objs nd.2 = h.objs nd.2) ∧
        (∀ selfAddr, ∀ nd ∈ (filtersAccess decl selfAddr h).1,
          (filtersAccess decl selfAddr h).2.objs nd.2 =
            ⟨some nd.1, some selfAddr, true⟩)) := by
  intro selfs
  induction selfs with
  | nil =>
    intro decl h hv
    refine ⟨fun nd _ => rfl, fun selfAddr nd hnd => ?_⟩
    exact bindFold_sets _ _ selfAddr (deepcopy_increasing decl h) nd hnd
  | cons s rest ih =>
    intro decl h hv
    have hstep := fun nd (hnd : nd ∈ decl) =>
      filtersAccess_frame decl s h nd.2 (hv nd hnd)
    constructor
    · intro nd hnd
      have hv' : ∀ nd ∈ decl, nd.2 < (requestStep decl s h).next := by
        intro e he
        rcases decl.eq_nil_or_concat with rfl | _
        · simp at he
        · exact lt_of_lt_of_le (hv e he) (hstep e he).2
      have := (ih decl (requestStep decl s h) hv').1 nd hnd
      rw [runRequests, this]
      exact (hstep nd hnd).1
    · intro selfAddr nd hnd
      exact bindFold_sets _ _ selfAddr (deepcopy_increasing decl h) nd hnd

/-- Witness for C9 at a concrete one-template heap and two requests. -/
theorem c9_witness :
    ((runRequests [("foo", 0)] [7, 9]
        ⟨fun _ => ⟨none, none, false⟩, 1⟩).objs 0 =
      (⟨fun _ => ⟨none, none, false⟩, 1⟩ : Heap).objs 0) :=
  (c9_theorem [7, 9] [("foo", 0)] ⟨fun _ => ⟨none, none, false⟩, 1⟩
    (by intro nd hnd; simp at hnd; simp [hnd])).1 ("foo", 0) (by simp)

/-! ## C2/C3 — strictness policy -/

/-- In `drop` mode the walk returns exactly the successfully produced
specs, whatever errors were collected. -/
theorem getSpecsLoop_drop (bl : List String) (ch : FilterChildren) :
    ∀ (cs : List LookupCfg) (specs : List FilterSpec)
      (errors : List (String × List String)),
      getSpecsLoop bl ch .drop cs specs errors =
        .ok (specs ++ cs.filterMap (cfgSpec bl ch)) := by
  intro cs
  induction cs with
  | nil => intro specs errors; simp [getSpecsLoop]
  | cons c rest ih =>
    intro specs errors
    rw [getSpecsLoop]
    by_cases hv : validateKey c.key
    · cases hr : resolveRoot bl ch c <;> simp [hv, hr, ih, cfgSpec]
    · have hv' : validateKey c.key = false := by simpa using hv
      simp [hv', ih, cfgSpec]

/-- An error-free run of configs just threads through, in every mode. -/
theorem getSpecsLoop_append_clean (bl : List String) (ch : FilterChildren)
    (mode : StrictMode) :
    ∀ (pre : List LookupCfg), (∀ x ∈ pre, cfgErr bl ch x = none) →
      ∀ (rest : List LookupCfg) (specs : List FilterSpec)
        (errors : List (String × List String)),
        getSpecsLoop bl ch mode (pre ++ rest) specs errors =
          getSpecsLoop bl ch mode rest
            (specs ++ pre.filterMap (cfgSpec bl ch)) errors := by
  intro pre
  induction pre with
  | nil => intro _ rest specs errors; simp
  | cons c pre' ih =>
    intro hclean rest specs errors
    have hc : cfgErr bl ch c = none := hclean c (List.mem_cons_self _ _)
    have hclean' : ∀ x ∈ pre', cfgErr bl ch x = none :=
      fun x hx => hclean x (List.mem_cons_of_mem _ hx)
    rw [List.cons_append, getSpecsLoop]
    by_cases hv : validateKey c.key
    · cases hr : resolveRoot bl ch c with
      | ok s => simp [hv, hr, ih hclean', cfgSpec]
      | skip => simp [hv, hr, ih hclean', cfgSpec]
      | invalid msgs => simp [cfgErr, hv, hr] at hc
    · have hv' : validateKey c.key = false := by simpa using hv
      simp [hv', ih hclean', cfgSpec]

/-- In `fail` mode, a tail free of failures ends with the errors
collected so far: raise them if any, else return the specs. -/
theorem getSpecsLoop_clean_fail (bl : List String) (ch : FilterChildren)
    (post : List LookupCfg) (hclean : ∀ x ∈ post, cfgErr bl ch x = none)
    (specs : List FilterSpec) (errors : List (String × List String)) :
    getSpecsLoop bl ch .fail post specs errors =
      if errors.isEmpty then .ok (specs ++ post.filterMap (cfgSpec bl ch))
      else .invalid errors := by
  have h := getSpecsLoop_append_clean bl ch .fail post hclean [] specs errors
  rw [List.append_nil] at h
  rw [h, getSpecsLoop]
  by_cases he : errors.isEmpty
  · simp [he]
  · simp [he]

theorem cfgErr_some (bl : List String) (ch : FilterChildren) (c : LookupCfg)
    (e : String × List String) (h : cfgErr bl ch c = some e) :
    validateKey c.key = true ∧ resolveRoot bl ch c = .invalid e.2 ∧
      e.1 = c.key ∧ cfgSpec bl ch c = none := by
  unfold cfgErr at h
  by_cases hv : validateKey c.key
  · rw [if_neg (by simp [hv])] at h
    cases hr : resolveRoot bl ch c with
    | ok s => rw [hr] at h; simp at h
    | skip => rw [hr] at h; simp at h
    | invalid msgs =>
      rw [hr] at h
      simp only [Option.some.injEq] at h
      subst h
      exact ⟨hv, by simp [hr], rfl, by simp [cfgSpec, hv, hr]⟩
  · rw [if_pos (by simpa using hv)] at h
    exact absurd h (by simp)

/-- **C3 — confirmed.**  For an input whose generated configs contain
exactly one failing entry among otherwise clean ones: `drop` mode
returns the successful specifications (all of them — also those
appearing after the failure) and raises nothing, while `fail` mode walks
the entire input and then raises one aggregate error keyed by exactly
the one invalid original flat key with its message list. -/
theorem c3_theorem :
    ∀ (bl : List String) (ch : FilterChildren)
      (data : List (String × List String)) (pre post : List LookupCfg)
      (c : LookupCfg) (e : String × List String),
      generateLookupConfigs data = pre ++ c :: post →
      (∀ x ∈ pre, cfgErr bl ch x = none) →
      (∀ x ∈ post, cfgErr bl ch x = none) →
      cfgErr bl ch c = some e →
      getSpecs bl ch .drop data =
          .ok ((pre ++ c :: post).filterMap (cfgSpec bl ch)) ∧
        getSpecs bl ch .fail data = .invalid [e] := by
  intro bl ch data pre post c e hcfgs hpre hpost hc
  obtain ⟨hv, hr, hkey, _⟩ := cfgErr_some bl ch c e hc
  constructor
  · rw [getSpecs, hcfgs, getSpecsLoop_drop]
    simp
  · rw [getSpecs, hcfgs, getSpecsLoop_append_clean bl ch .fail pre hpre]
    rw [getSpecsLoop]
    rw [hv, hr]
    simp only [Bool.not_true, Bool.false_eq_true, if_false]
    rw [getSpecsLoop_clean_fail bl ch post hpost]
    have : errAdd [] c.key e.2 = [(c.key, e.2)] := by simp [errAdd]
    rw [this]
    simp [← hkey]

/-- Witness for C3 on the demo filterset: `field=earth` succeeds,
`bar__thing__range=5,100` fails validation (100 exceeds the field's
maximum of 15). -/
theorem c3_witness :
    getSpecs djangoSupportedLookups demoRootChildren .drop
        [("field", ["earth"]), ("bar__thing__range", ["5,100"])] =
      .ok [⟨["field"], "exact", .str "earth", false, none⟩] ∧
    getSpecs djangoSupportedLookups demoRootChildren .fail
        [("field", ["earth"]), ("bar__thing__range", ["5,100"])] =
      .invalid [("bar__thing__range",
        ["Ensure this value is less than or equal to 15."])] := by
  have h := c3_theorem djangoSupportedLookups demoRootChildren
    [("field", ["earth"]), ("bar__thing__range", ["5,100"])]
    [⟨"field", chainOf "field" "earth"⟩] []
    ⟨"bar__thing__range", chainOf "bar__thing__range" "5,100"⟩
    ("bar__thing__range", ["Ensure this value is less than or equal to 15."])
    (by decide) (by intro x hx; simp at hx; subst hx; decide)
    (by intro x hx; simp at hx) (by decide)
  refine ⟨?_, h.2⟩
  rw [h.1]
  decide

/-- A failing config at the head of the walk short-circuits `empty`
mode immediately. -/
theorem getSpecsLoop_empty_head (bl : List String) (ch : FilterChildren)
    (c : LookupCfg) (rest : List LookupCfg) (specs : List FilterSpec)
    (errors : List (String × List String)) (hc : cfgFails bl ch c = true) :
    getSpecsLoop bl ch .empty (c :: rest) specs errors = .empty := by
  rw [cfgFails] at hc
  by_cases hv : validateKey c.key
  · rw [getSpecsLoop]
    cases hr : resolveRoot bl ch c <;> rw [hr] at hc <;> simp [hv] at hc ⊢
  · simp [hv] at hc

/-- A failing config anywhere in the walk short-circuits `empty`
mode. -/
theorem getSpecsLoop_empty_of_fails (bl : List String) (ch : FilterChildren) :
    ∀ (cs : List LookupCfg), (∃ c ∈ cs, cfgFails bl ch c = true) →
      ∀ (specs : List FilterSpec) (errors : List (String × List String)),
        getSpecsLoop bl ch .empty cs specs errors = .empty := by
  intro cs
  induction cs with
  | nil => rintro ⟨c, hc, _⟩; simp at hc
  | cons x rest ih =>
    rintro ⟨c, hmem, hfail⟩ specs errors
    rcases List.mem_cons.mp hmem with rfl | hmem'
    · exact getSpecsLoop_empty_head bl ch c rest specs errors hfail
    · by_cases hx : cfgFails bl ch x = true
      · exact getSpecsLoop_empty_head bl ch x rest specs errors hx
      · rw [cfgFails] at hx
        rw [getSpecsLoop]
        by_cases hv : validateKey x.key
        · cases hr : resolveRoot bl ch x with
          | ok s =>
            simp only [hv, Bool.not_true, Bool.false_eq_true, if_false]
            exact ih ⟨c, hmem', hfail⟩ _ _
          | skip =>
            simp only [hv, Bool.not_true, Bool.false_eq_true, if_false]
            exact ih ⟨c, hmem', hfail⟩ _ _
          | invalid m => rw [hv, hr] at hx; simp at hx
        · have hv' : validateKey x.key = false := by simpa using hv
          simp only [hv', Bool.not_false, if_true]
          exact ih ⟨c, hmem', hfail⟩ _ _

/-- **C2 — confirmed** (the `empty` handling of `get_specs` is modelled
from the spec; `StrictMode.empty` and its tests are in `src/`, the
implementing `get_specs`/`Empty` revision is not).  The strictness
policy has exactly the three modes `empty`, `drop`, `fail`, with `drop`
the default; in empty-on-failure mode the first per-leaf failure
short-circuits the walk (the remaining configs are never consulted) and
any failing config yields the `Empty` signal; that signal is distinct
from every spec-list result (in particular from "zero specs"); and the
caller turns it into the backend's empty representation (`[]` for the
plain backend) instead of a partially-successful spec list. -/
theorem c2_theorem :
    (∀ m : StrictMode, m = .empty ∨ m = .drop ∨ m = .fail) ∧
      defaultStrictMode = .drop ∧
      (∀ (bl : List String) (ch : FilterChildren) (c : LookupCfg)
        (rest : List LookupCfg) (specs : List FilterSpec)
        (errors : List (String × List String)),
        cfgFails bl ch c = true →
        getSpecsLoop bl ch .empty (c :: rest) specs errors = .empty) ∧
      (∀ (bl : List String) (ch : FilterChildren)
        (data : List (String × List String)),
        (∃ c ∈ generateLookupConfigs data, cfgFails bl ch c = true) →
        getSpecs bl ch .empty data = .empty) ∧
      (∀ specs : List FilterSpec, SpecsOutcome.empty ≠ SpecsOutcome.ok specs) ∧
      (∀ (rm irm : String → String → Bool) (ch : FilterChildren)
        (mode : StrictMode) (data : List (String × List String))
        (qs : List PValue),
        getSpecs plainSupportedLookups ch mode data = .empty →
        filterRequestPlain rm irm ch mode data qs = .ok (some [])) := by
  refine ⟨fun m => by cases m <;> simp,
    rfl,
    fun bl ch c rest specs errors hc =>
      getSpecsLoop_empty_head bl ch c rest specs errors hc,
    fun bl ch data hex =>
      getSpecsLoop_empty_of_fails bl ch (generateLookupConfigs data) hex [] [],
    fun specs => by simp,
    fun rm irm ch mode data qs hempty => by rw [filterRequestPlain, hempty]⟩

/-- Witness for C2: one invalid range value short-circuits the empty
mode on the demo filterset, and the driver yields the plain backend's
empty list. -/
theorem c2_witness :
    getSpecs djangoSupportedLookups demoRootChildren .empty
        [("bar__thing__range", ["5,100"])] = .empty ∧
      filterRequestPlain (fun _ _ => false) (fun _ _ => false)
        demoRootChildren .empty [("bar__thing__range", ["5,100"])] [] =
        .ok (some []) :=
  ⟨c2_theorem.2.2.2.1 djangoSupportedLookups demoRootChildren _
      ⟨⟨"bar__thing__range", chainOf "bar__thing__range" "5,100"⟩,
        by decide, by decide⟩,
    c2_theorem.2.2.2.2.2 _ _ demoRootChildren .empty _ []
      (c2_theorem.2.2.2.1 plainSupportedLookups demoRootChildren _
        ⟨⟨"bar__thing__range", chainOf "bar__thing__range" "5,100"⟩,
          by decide, by decide⟩)⟩

/-! ## C6 — default-filter delegation -/

/-- When no declared child has the name, the fused find-and-resolve walk
finds nothing. -/
theorem findResolve_none_of (bl : List String) :
    (children : FilterChildren) → ∀ (comps : List String) (name key : String)
      (v : ConfigData), findChild children name = none →
      findResolve bl children comps name key v = none
  | .nil => fun _ _ _ _ _ => rfl
  | .cons n d rest => fun comps name key v h => by
    rw [findChild] at h
    rw [findResolve]
    by_cases hn : (n == name) = true
    · rw [if_pos hn] at h; exact absurd h (by simp)
    · rw [if_neg hn] at h ⊢
      exact findResolve_none_of bl rest comps name key v h

/-- **C6 — confirmed.**  On the demo tree (child `bar` a nested
filterset whose default leaf is the `IntegerField` filter `id`), the
keys `bar=5` and `bar__id=5` resolve to the identical specification
(`path_components` ending in `id`, lookup `exact`, value `5`); and in
general, the fallback that reinterprets an unmatched segment as a lookup
on the default filter applies only on non-root filtersets — at the root
the config is skipped even when a default filter exists. -/
theorem c6_theorem :
    (resolveRoot djangoSupportedLookups demoRootChildren
        ⟨"bar", chainOf "bar" "5"⟩ =
          .ok ⟨["bar", "id"], "exact", .int 5, false, none⟩ ∧
      resolveRoot djangoSupportedLookups demoRootChildren
        ⟨"bar__id", chainOf "bar__id" "5"⟩ =
          .ok ⟨["bar", "id"], "exact", .int 5, false, none⟩) ∧
      (∀ (bl : List String) (children : FilterChildren) (comps : List String)
        (key n : String) (v : ConfigData)
        (entries : List (String × ConfigData)) (dn : String) (dd : LeafInfo),
        findChild children n = none →
        defaultChild children = some (dn, dd) →
        (resolveDef bl (.fset none children) comps true key
            (.node ((n, v) :: entries)) = .skip ∧
          ∀ src, resolveDef bl (.fset src children) comps false key
              (.node ((n, v) :: entries)) =
            leafGetSpec bl (comps ++ [(dd.src).getD dn]) dd key
              (.node ((n, v) :: entries)))) := by
  refine ⟨⟨by decide, by decide⟩, ?_⟩
  intro bl children comps key n v entries dn dd hfind hdef
  have hfr := findResolve_none_of bl children comps n key v hfind
  constructor
  · rw [resolveDef]
    simp [hfr, hdef]
  · intro src
    rw [resolveDef]
    simp [hfr, hdef]

/-- Witness for C6's general part: `zzz` names no filter of the demo
root, which has a default filter, yet the root skips the config. -/
theorem c6_witness :
    resolveDef djangoSupportedLookups (.fset none demoRootChildren) [] true
        "zzz" (.node [("zzz", .leaf "1")]) = .skip ∧
      resolveDef djangoSupportedLookups (.fset none demoBarChildren) ["bar"]
          false "bar__zzz" (.node [("zzz", .leaf "1")]) =
        leafGetSpec djangoSupportedLookups ["bar", "id"]
          ⟨none, .integerField true none none, none, "exact", true, false⟩
          "bar__zzz" (.node [("zzz", .leaf "1")]) :=
  ⟨((c6_theorem.2 djangoSupportedLookups demoRootChildren [] "zzz" "zzz"
      (.leaf "1") [] "field"
      ⟨none, .charField true none, none, "exact", true, false⟩
      rfl rfl).1),
    ((c6_theorem.2 djangoSupportedLookups demoBarChildren ["bar"] "bar__zzz"
      "zzz" (.leaf "1") [] "id"
      ⟨none, .integerField true none none, none, "exact", true, false⟩
      rfl rfl).2 none)⟩

/-! ## C8 — round-trip negation -/

theorem cleanListWith_congr (f g : String → Except (List String) Value)
    (hfg : ∀ p, f p = g p) :
    ∀ (ps : List String), cleanListWith f ps = cleanListWith g ps := by
  intro ps
  induction ps with
  | nil => rfl
  | cons p rest ih => rw [cleanListWith, cleanListWith, hfg, ih]

/-- Cleaning a raw scalar value never consults the flat key (the key
only enters through `str()` of nested dictionaries). -/
theorem cleanField_scalar_key :
    ∀ (f : FormField) (k1 k2 s : String),
      cleanField f k1 (.leaf s) = cleanField f k2 (.leaf s)
  | .charField _ _, _, _, _ => rfl
  | .integerField _ _ _, _, _, _ => rfl
  | .booleanField _, _, _, _ => rfl
  | .multipleValues child minV maxV, k1, k2, s => by
    have h := cleanListWith_congr
      (fun p => cleanField child k1 (.leaf p))
      (fun p => cleanField child k2 (.leaf p))
      (fun p => cleanField_scalar_key child k1 k2 p)
      (pySplitComma (pyStrip s))
    simp only [cleanField, pyStrOfData]
    rw [h]

/-- `Filter.get_spec` depends on the flat key only through the negation
flag, provided the value it cleans is a raw scalar. -/
theorem leafGetSpec_setNeg (bl : List String) (comps : List String)
    (info : LeafInfo) (k1 k2 : String) (data : ConfigData)
    (hsc : scalarCleanData data = true) :
    leafGetSpec bl comps info k2 data =
      (leafGetSpec bl comps info k1 data).setNeg (hasNegMark k2) := by
  cases data with
  | leaf s =>
    rw [leafGetSpec, leafGetSpec]
    rw [cleanField_scalar_key (getFormField info.form_field info.default_lookup)
      k2 k1 s]
    by_cases hlk : info.default_lookup ∈ effectiveLookups bl info.lookups <;>
      cases hc : cleanField (getFormField info.form_field info.default_lookup)
        k1 (.leaf s) <;>
      simp [hlk, hc, ResolveResult.setNeg]
  | node entries =>
    rcases entries with _ | ⟨⟨lk, sub⟩, rest⟩
    · simp [leafGetSpec, ConfigData.isKeyValue, ResolveResult.setNeg]
    · rcases rest with _ | ⟨e2, rest'⟩
      · -- exactly one entry
        rcases sub with s' | es
        · -- scalar below the explicit lookup
          rw [leafGetSpec, leafGetSpec]
          by_cases hnl : info.no_lookup <;>
            by_cases hlk : lk ∈ effectiveLookups bl info.lookups <;>
            cases hc : cleanField (getFormField info.form_field lk) k1 (.leaf s') <;>
            simp [ConfigData.isKeyValue, hnl, hlk, hc, ResolveResult.setNeg,
              cleanField_scalar_key (getFormField info.form_field lk) k2 k1 s']
        · simp [scalarCleanData] at hsc
      · -- two or more entries: fails before cleaning
        simp [leafGetSpec, ConfigData.isKeyValue, ResolveResult.setNeg]

theorem findChild_sizeOf :
    (children : FilterChildren) → ∀ (name n' : String) (d' : FilterDef),
      findChild children name = some (n', d') → sizeOf d' < sizeOf children
  | .nil => fun name n' d' h => by simp [findChild] at h
  | .cons n d rest => fun name n' d' h => by
    rw [findChild] at h
    by_cases hn : (n == name) = true
    · rw [if_pos hn] at h
      simp only [Option.some.injEq, Prod.mk.injEq] at h
      rw [← h.2]
      simp
      omega
    · rw [if_neg hn] at h
      have := findChild_sizeOf rest name n' d' h
      simp
      omega

theorem findResolve_some_of (bl : List String) :
    (children : FilterChildren) → ∀ (comps : List String) (name key : String)
      (v : ConfigData) (n' : String) (d' : FilterDef),
      findChild children name = some (n', d') →
      findResolve bl children comps name key v =
        some (resolveDef bl d' (comps ++ [sourceOf n' d']) false key v)
  | .nil => fun _ _ _ _ _ _ h => by simp [findChild] at h
  | .cons n d rest => fun comps name key v n' d' h => by
    rw [findChild] at h
    rw [findResolve]
    by_cases hn : (n == name) = true
    · rw [if_pos hn] at h
      rw [if_pos hn]
      simp only [Option.some.injEq, Prod.mk.injEq] at h
      rw [h.1, h.2]
    · rw [if_neg hn] at h
      rw [if_neg hn]
      exact findResolve_some_of bl rest comps name key v n' d' h

theorem scalarCleanFind_some_of :
    (children : FilterChildren) → ∀ (name : String) (v : ConfigData)
      (n' : String) (d' : FilterDef),
      findChild children name = some (n', d') →
      scalarCleanFind children name v = some (scalarCleanDef d' false v)
  | .nil => fun _ _ _ _ h => by simp [findChild] at h
  | .cons n d rest => fun name v n' d' h => by
    rw [findChild] at h
    rw [scalarCleanFind]
    by_cases hn : (n == name) = true
    · rw [if_pos hn] at h
      rw [if_pos hn]
      simp only [Option.some.injEq, Prod.mk.injEq] at h
      rw [h.2]
    · rw [if_neg hn] at h
      rw [if_neg hn]
      exact scalarCleanFind_some_of rest name v n' d' h

theorem scalarCleanFind_none_of :
    (children : FilterChildren) → ∀ (name : String) (v : ConfigData),
      findChild children name = none → scalarCleanFind children name v = none
  | .nil => fun _ _ _ => rfl
  | .cons n d rest => fun name v h => by
    rw [findChild] at h
    rw [scalarCleanFind]
    by_cases hn : (n == name) = true
    · rw [if_pos hn] at h; exact absurd h (by simp)
    · rw [if_neg hn] at h
      rw [if_neg hn]
      exact scalarCleanFind_none_of rest name v h

/-- Resolution depends on the flat key only through the negation flag,
provided every value handed to `clean` along the way is a raw scalar. -/
theorem resolveDef_setNeg :
    ∀ (fuel : Nat) (d : FilterDef), sizeOf d ≤ fuel →
      ∀ (bl : List String) (comps : List String) (isRoot : Bool)
        (k1 k2 : String) (data : ConfigData),
        scalarCleanDef d isRoot data = true →
        resolveDef bl d comps isRoot k2 data =
          (resolveDef bl d comps isRoot k1 data).setNeg (hasNegMark k2) := by
  intro fuel
  induction fuel with
  | zero =>
    intro d hd
    exfalso
    cases d <;> simp at hd
  | succ n ih =>
    intro d hd bl comps isRoot k1 k2 data hsc
    cases d with
    | leaf info =>
      simp only [scalarCleanDef] at hsc
      rw [resolveDef.eq_def, resolveDef.eq_def]
      exact leafGetSpec_setNeg bl comps info k1 k2 data hsc
    | fset src children =>
      have hch : sizeOf children ≤ n := by
        have : sizeOf children < sizeOf (FilterDef.fset src children) := by simp
        omega
      simp only [scalarCleanDef] at hsc
      rw [resolveDef.eq_def, resolveDef.eq_def]
      dsimp only
      cases data with
      | leaf s =>
        cases hdc : defaultChild children with
        | none => rfl
        | some dpair =>
          obtain ⟨dn, dd⟩ := dpair
          rw [hdc] at hsc
          dsimp only at hsc ⊢
          cases hfc : findChild children (dd.src.getD dn) with
          | some fpair =>
            obtain ⟨n', d'⟩ := fpair
            rw [findResolve_some_of bl children comps _ k1 (.leaf s) n' d' hfc,
              findResolve_some_of bl children comps _ k2 (.leaf s) n' d' hfc]
            rw [scalarCleanFind_some_of children _ (.leaf s) n' d' hfc] at hsc
            dsimp only at hsc
            have hsz : sizeOf d' ≤ n := by
              have := findChild_sizeOf children _ n' d' hfc
              omega
            exact ih d' hsz bl (comps ++ [sourceOf n' d']) false k1 k2 (.leaf s) hsc
          | none =>
            rw [findResolve_none_of bl children comps _ k1 (.leaf s) hfc,
              findResolve_none_of bl children comps _ k2 (.leaf s) hfc]
            cases isRoot with
            | true => rfl
            | false =>
              exact leafGetSpec_setNeg bl (comps ++ [dd.src.getD dn]) dd k1 k2
                (.leaf s) rfl
      | node entries =>
        rcases entries with _ | ⟨⟨n0, v0⟩, es⟩
        · rfl
        · dsimp only at hsc ⊢
          cases hfc : findChild children n0 with
          | some fpair =>
            obtain ⟨n', d'⟩ := fpair
            rw [findResolve_some_of bl children comps n0 k1 v0 n' d' hfc,
              findResolve_some_of bl children comps n0 k2 v0 n' d' hfc]
            rw [scalarCleanFind_some_of children n0 v0 n' d' hfc] at hsc
            dsimp only at hsc
            have hsz : sizeOf d' ≤ n := by
              have := findChild_sizeOf children n0 n' d' hfc
              omega
            exact ih d' hsz bl (comps ++ [sourceOf n' d']) false k1 k2 v0 hsc
          | none =>
            rw [findResolve_none_of bl children comps n0 k1 v0 hfc,
              findResolve_none_of bl children comps n0 k2 v0 hfc]
            rw [scalarCleanFind_none_of children n0 v0 hfc] at hsc
            cases hdc : defaultChild children with
            | none => rw [hdc] at hsc; rfl
            | some dpair =>
              obtain ⟨dn, dd⟩ := dpair
              rw [hdc] at hsc
              dsimp only at hsc ⊢
              cases isRoot with
              | true => rfl
              | false =>
                simp only [Bool.false_eq_true, if_false] at hsc
                exact leafGetSpec_setNeg bl (comps ++ [dd.src.getD dn]) dd k1 k2
                  (.node ((n0, v0) :: es)) hsc

theorem stripNeg_append_bang (key : String) :
    stripNeg (key ++ "!") = stripNeg key := by
  simp [stripNeg, String.data_append]

theorem hasNegMark_append_bang (key : String) :
    hasNegMark (key ++ "!") = true := by
  simp [hasNegMark, String.data_append]

theorem chainOf_append_bang (key v : String) :
    chainOf (key ++ "!") v = chainOf key v := by
  simp [chainOf, pySplitDunder, stripNeg_append_bang]

/-- **C8 — amended.**  Round-trip negation holds whenever the value
submitted to the field's cleaning is the raw scalar (the `scalarCleanDef`
side condition, satisfied by every key with no extra segments after the
final lookup): if `path__lookup=value` resolves to a specification, the
same key with the trailing negation mark resolves to the identical
specification with `is_negated=True`.  Without the side condition the
property fails: for keys with extra nested segments Python's `str()`
coercion embeds the raw key — negation mark included — into the cleaned
value (see the counterexample). -/
theorem c8_theorem :
    ∀ (bl : List String) (children : FilterChildren) (key v : String)
      (spec : FilterSpec),
      hasNegMark key = false →
      scalarCleanDef (.fset none children) true (chainOf key v) = true →
      resolveRoot bl children ⟨key, chainOf key v⟩ = .ok spec →
      resolveRoot bl children ⟨key ++ "!", chainOf (key ++ "!") v⟩ =
        .ok { spec with is_negated := true } := by
  intro bl children key v spec hneg hsc hres
  rw [resolveRoot] at hres ⊢
  simp only [chainOf_append_bang]
  rw [resolveDef_setNeg (sizeOf (FilterDef.fset (none : Option String) children))
    _ le_rfl bl [] true key (key ++ "!") _ hsc]
  rw [hres, hasNegMark_append_bang]
  rfl

/-- **C8 — counterexample.**  On the demo filterset (whose `field` filter
is a `CharField`), the key `field__in__b=v` resolves to a specification,
but `field__in__b!=v` does *not* resolve to the same specification with
only `is_negated` flipped: the cleaned values differ, because Python's
`str()` of the leftover nested dictionary embeds the original flat key —
with the negation mark — via the `LookupConfig` repr. -/
theorem c8_counterexample :
    resolveRoot djangoSupportedLookups demoRootChildren
        ⟨"field__in__b", chainOf "field__in__b" "v"⟩ =
      .ok ⟨["field"], "in",
        .list [.str "\x7b'b': <LookupConfig field__in__b=>'v'>\x7d"], false, none⟩ ∧
    resolveRoot djangoSupportedLookups demoRootChildren
        ⟨"field__in__b!", chainOf "field__in__b!" "v"⟩ =
      .ok ⟨["field"], "in",
        .list [.str "\x7b'b': <LookupConfig field__in__b!=>'v'>\x7d"], true, none⟩ ∧
    ResolveResult.ok ⟨["field"], "in",
        .list [.str "\x7b'b': <LookupConfig field__in__b!=>'v'>\x7d"], true, none⟩ ≠
      .ok ⟨["field"], "in",
        .list [.str "\x7b'b': <LookupConfig field__in__b=>'v'>\x7d"], true, none⟩ := by
  refine ⟨by decide, by decide, by decide⟩

/-- Witness for C8's amended theorem at the key `bar__thing=7`. -/
theorem c8_witness :
    resolveRoot djangoSupportedLookups demoRootChildren
        ⟨"bar__thing" ++ "!", chainOf ("bar__thing" ++ "!") "7"⟩ =
      .ok ⟨["bar", "thing"], "exact", .int 7, true, none⟩ :=
  c8_theorem djangoSupportedLookups demoRootChildren "bar__thing" "7"
    ⟨["bar", "thing"], "exact", .int 7, false, none⟩
    (by decide) (by decide) (by decide)

end UrlFilter
